import Mathlib

/-!
# Wired Logic sandbox (`main.go`): a shallow embedding

The program is an ebiten front end around the `simulation` package of
`wired-logic`.  The embedding has three layers:

* the part of Go's standard `image` package that `main.go` calls
  (`Point`, `Rectangle`, `Paletted` with `ColorIndexAt` / `SetColorIndex`);
* the `simulation` package, which is an import and not part of this
  repository: it is a parameter (`Engine`) of everything that uses it;
* the functions of `main.go` themselves (`flipPixel`, `drawPoweredDown`,
  `drawMask`, `reloadSimulation`, `handleKeyboard`, `handleMouse`, `Update`,
  and the set-up done by `main`).

Go `int` values are `Int` (coordinates and counters stay far from the ends of
the 64-bit range); the `uint8` colour indices are `Nat` (the program itself
only ever stores the constants 0 and 1).  A run-time panic (slice index out
of range) is the `none` of `Option`.
-/

namespace WiredLogic

/-! ## Go's `image` geometry -/

/-- Go `image.Point`. -/
structure Point where
  X : Int
  Y : Int
deriving DecidableEq, Repr

/-- Go `image.Rectangle`: the points with `Min.X <= x < Max.X` and
`Min.Y <= y < Max.Y`. -/
structure Rectangle where
  Min : Point
  Max : Point
deriving DecidableEq, Repr

/-- Go `Rectangle.Dx`. -/
def Rectangle.Dx (r : Rectangle) : Int := r.Max.X - r.Min.X

/-- Go `Rectangle.Dy`. -/
def Rectangle.Dy (r : Rectangle) : Int := r.Max.Y - r.Min.Y

/-- Go `Rectangle.Empty`. -/
def Rectangle.Empty (r : Rectangle) : Bool :=
  decide (r.Min.X ≥ r.Max.X) || decide (r.Min.Y ≥ r.Max.Y)

/-- Go `Point.In`. -/
def Point.In (p : Point) (r : Rectangle) : Bool :=
  decide (r.Min.X ≤ p.X) && decide (p.X < r.Max.X) &&
    decide (r.Min.Y ≤ p.Y) && decide (p.Y < r.Max.Y)

/-- Go `image.Rect`: the rectangle with the given corners, the coordinates
swapped where needed so that the result is well formed. -/
def Rect (x0 y0 x1 y1 : Int) : Rectangle :=
  let (x0, x1) := if x0 > x1 then (x1, x0) else (x0, x1)
  let (y0, y1) := if y0 > y1 then (y1, y0) else (y0, y1)
  ⟨⟨x0, y0⟩, ⟨x1, y1⟩⟩

/-- Go `Rectangle.Union`: the smallest rectangle containing both. -/
def Rectangle.Union (r s : Rectangle) : Rectangle :=
  if r.Empty then s
  else if s.Empty then r
  else
    ⟨⟨if r.Min.X > s.Min.X then s.Min.X else r.Min.X,
      if r.Min.Y > s.Min.Y then s.Min.Y else r.Min.Y⟩,
     ⟨if r.Max.X < s.Max.X then s.Max.X else r.Max.X,
      if r.Max.Y < s.Max.Y then s.Max.Y else r.Max.Y⟩⟩

/-! ## Colours and paletted images -/

/-- The two implementations of Go's `color.Color` that `main.go` puts into a
palette: `color.Gray16` (the type of `color.Black`) and `color.RGBA`. -/
inductive Color where
  | Gray16 (Y : Nat)
  | RGBA (R G B A : Nat)
deriving DecidableEq, Repr

/-- Go `color.Black`. -/
def Color.Black : Color := Color.Gray16 0

/-- Go `image.Paletted`: a byte buffer `Pix` of palette indices, the distance
`Stride` between two rows, the bounds `Rect` and the `Palette`.

The two proof fields are the layout invariant of the type: a row of the
rectangle fits in a stride, and the buffer reaches to the end of the last
row.  `image.NewPaletted` establishes it, `SubImage` and `SetColorIndex`
keep it, and it is what makes `Pix[PixOffset(x, y)]` an in-range access for
every point of `Rect`. -/
structure Paletted where
  Pix : List Nat
  Stride : Int
  Rect : Rectangle
  Palette : List Color
  stride_ok : Rect.Dx ≤ Stride
  pix_ok : 0 < Rect.Dx → 0 < Rect.Dy → (Rect.Dy - 1) * Stride + Rect.Dx ≤ Pix.length

/-- Go `Paletted.Bounds`. -/
def Paletted.Bounds (p : Paletted) : Rectangle := p.Rect

/-- Go `Paletted.PixOffset`: the index in `Pix` of the pixel at `(x, y)`. -/
def Paletted.PixOffset (p : Paletted) (x y : Int) : Int :=
  (y - p.Rect.Min.Y) * p.Stride + (x - p.Rect.Min.X) * 1

/-- Go `Paletted.ColorIndexAt`: 0 outside the bounds, `Pix[PixOffset(x, y)]`
inside.  The offset of a point of `Rect` is a valid index of `Pix`
(`PixOffset_lt_length`), so the default of `getD` is never taken. -/
def Paletted.ColorIndexAt (p : Paletted) (x y : Int) : Nat :=
  if !(Point.In ⟨x, y⟩ p.Rect) then 0
  else p.Pix.getD (p.PixOffset x y).toNat 0

/-- Go `Paletted.SetColorIndex`: nothing outside the bounds,
`Pix[PixOffset(x, y)] = index` inside. -/
def Paletted.SetColorIndex (p : Paletted) (x y : Int) (index : Nat) : Paletted :=
  if !(Point.In ⟨x, y⟩ p.Rect) then p
  else
    { Pix := p.Pix.set (p.PixOffset x y).toNat index
      Stride := p.Stride
      Rect := p.Rect
      Palette := p.Palette
      stride_ok := p.stride_ok
      pix_ok := by
        intro h1 h2
        have h := p.pix_ok h1 h2
        simpa using h }

/-- Go `image.NewPaletted`: a zeroed image of the given bounds, with
`Stride = r.Dx()` and `len(Pix) = r.Dx() * r.Dy()`. -/
def NewPaletted (r : Rectangle) (p : List Color) : Paletted :=
  { Pix := List.replicate (r.Dx * r.Dy).toNat 0
    Stride := 1 * r.Dx
    Rect := r
    Palette := p
    stride_ok := by simp
    pix_ok := by
      intro h1 h2
      have h3 : 0 ≤ r.Dx * r.Dy := le_of_lt (mul_pos h1 h2)
      have h4 : ((r.Dx * r.Dy).toNat : Int) = r.Dx * r.Dy := Int.toNat_of_nonneg h3
      rw [List.length_replicate, h4]
      have h5 : (r.Dy - 1) * (1 * r.Dx) + r.Dx = r.Dx * r.Dy := by ring
      exact le_of_eq h5 }

/-! ## `main.go`: the two raster edits -/

/-- Source `flipPixel` (main.go 251-262): index 0 becomes 1, every other
index becomes 0. -/
def flipPixel (x y : Int) (img : Paletted) : Paletted :=
  let col := img.ColorIndexAt x y
  if col == 0 then img.SetColorIndex x y 1
  else img.SetColorIndex x y 0

/-- The body of the inner loop of `drawPoweredDown` (main.go 284-287). -/
def poweredDownPixel (img : Paletted) (x y : Int) : Paletted :=
  let col := img.ColorIndexAt x y
  if decide (col > 1) && decide (col ≤ 7) then img.SetColorIndex x y 1
  else img

/-- The inner loop of `drawPoweredDown` (main.go 283-288):
`for x := 0; x < img.Bounds().Dx(); x++`.  The body never changes `Rect`, so
the bound is the same at every test of the loop condition. -/
def poweredDownRow (img : Paletted) (y : Int) : Paletted :=
  (List.range img.Bounds.Dx.toNat).foldl
    (fun (acc : Paletted) (x : Nat) => poweredDownPixel acc (x : Int) y) img

/-- Source `drawPoweredDown` (main.go 277-291): the outer loop
`for y := 0; y < img.Bounds().Dy(); y++` over the rows. -/
def drawPoweredDown (img : Paletted) : Paletted :=
  (List.range img.Bounds.Dy.toNat).foldl
    (fun (acc : Paletted) (y : Nat) => poweredDownRow acc (y : Int)) img

/-! ## The `simulation` package and the ebiten images -/

/-- The API of the imported package `wired-logic/simulation` that `main.go`
calls.  The package is not part of this repository, so its functions are
parameters: `simulation.New`, `(*Simulation).Step`, `(*Simulation).Draw`
(which writes into the image it is given, here: returns the image after the
call), `s.Circuit().Wires()`, `s.State(wire).Charge()`, `wire.Bounds()` and
`wire.Pixels()`.  They are taken to return (no panic inside the package).  A
charge is a small unsigned integer, here a `Nat`, and `charge+1` is the
successor: exact as long as the charge is below the largest value of its Go
type, as every charge in the range up to K = 7 is. -/
structure Engine (Sim Wire : Type) where
  New : Paletted → Sim
  Step : Sim → Sim
  Draw : Sim → Paletted → Paletted
  Wires : Sim → List Wire
  Charge : Sim → Wire → Nat
  Bounds : Wire → Rectangle
  Pixels : Wire → List Point

/-- Go `image.RGBA` as `drawMask` uses it: the bounds, and the `SetRGBA`
writes that fell inside them, in program order. -/
structure RGBAImage where
  Rect : Rectangle
  written : List (Point × Color)
deriving DecidableEq, Repr

/-- Go `image.NewRGBA`: an image of the given bounds with nothing written. -/
def NewRGBA (r : Rectangle) : RGBAImage := ⟨r, []⟩

/-- Go `RGBA.SetRGBA`: nothing outside the bounds. -/
def RGBAImage.SetRGBA (img : RGBAImage) (x y : Int) (c : Color) : RGBAImage :=
  if !(Point.In ⟨x, y⟩ img.Rect) then img
  else { img with written := img.written ++ [(⟨x, y⟩, c)] }

/-- One `backgroundImage.DrawImage(g.wireImages[i], op)` of `Update`: the
slot `i` of `g.wireImages` that was drawn, the image found there, the
translation `op.GeoM` and the palette colour that `op.ColorM` scales by. -/
structure DrawCall where
  slot : Nat
  src : RGBAImage
  tx : Int
  ty : Int
  colour : Color
deriving DecidableEq, Repr

/-- The ebiten image `g.backgroundImage`: the paletted image it was created
from by `ebiten.NewImageFromImage`, and the `DrawImage` calls made on it
since, in program order. -/
structure Background where
  base : Paletted
  draws : List DrawCall

/-- `ebiten.NewImageFromImage` of a paletted image. -/
def NewImageFromImage (img : Paletted) : Background := ⟨img, []⟩

/-- Source `Game` (main.go 17-32).  An entry of `wireImages` is the ebiten
image made of a wire mask. -/
structure Game (Sim : Type) where
  simulation : Sim
  simulationImage : Paletted
  backgroundImage : Background
  wireImages : List RGBAImage
  width : Int
  height : Int
  scale : Int
  cursorx : Int
  cursory : Int
  mouse_cursorx : Int
  mouse_cursory : Int
  leftMouseButtonPressed : Bool
  simulationPaused : Bool
  key_debounce : Int

/-- What ebiten reports during one tick: `ebiten.IsKeyPressed` for the keys
the program asks about, `ebiten.CursorPosition` and
`ebiten.IsMouseButtonPressed(ebiten.MouseButtonLeft)`. -/
structure Input where
  KeyEscape : Bool
  KeySpace : Bool
  KeyP : Bool
  KeyF : Bool
  KeyW : Bool
  KeyUp : Bool
  KeyS : Bool
  KeyDown : Bool
  KeyA : Bool
  KeyLeft : Bool
  KeyD : Bool
  KeyRight : Bool
  CursorX : Int
  CursorY : Int
  MouseButtonLeft : Bool
deriving DecidableEq, Repr

/-- A tick with no key and no mouse button pressed, the cursor at `(x, y)`. -/
def Input.idle (x y : Int) : Input :=
  ⟨false, false, false, false, false, false, false, false, false, false, false, false,
    x, y, false⟩

/-! ## `main.go`: the game -/

/-- Source `drawMask` (main.go 264-275). -/
def drawMask {Sim Wire : Type} (api : Engine Sim Wire) (wire : Wire) : RGBAImage :=
  let bounds := Rect 0 0 (api.Bounds wire).Dx (api.Bounds wire).Dy
  let bounds := bounds.Union (Rect 0 0 4 4)
  let position := (api.Bounds wire).Min
  let img := NewRGBA bounds
  let white := Color.RGBA 0xFF 0xFF 0xFF 0xFF
  (api.Pixels wire).foldl
    (fun img pixel => img.SetRGBA (pixel.X - position.X) (pixel.Y - position.Y) white) img

/-- Source `Game.reloadSimulation` (main.go 166-181): a new simulation is
built from the raster and drawn back into it, and `wireImages` is replaced by
a slice of `len(wires)` entries, entry `i` the mask of wire `i`.  (Disposing
the old ebiten images frees GPU memory only.) -/
def reloadSimulation {Sim Wire : Type} (api : Engine Sim Wire) (g : Game Sim) : Game Sim :=
  let simulation := api.New g.simulationImage
  let simulationImage := api.Draw simulation g.simulationImage
  let wires := api.Wires simulation
  { g with
    simulation := simulation
    simulationImage := simulationImage
    wireImages := wires.map (fun wire => drawMask api wire) }

/-- An edit of the raster at the cursor followed by a reload, the pair of
statements `flipPixel(g.cursorx, g.cursory, g.simulationImage)` and
`g.reloadSimulation()` that main.go has at 75-76, 145-146 and 152-153. -/
def flipAndReload {Sim Wire : Type} (api : Engine Sim Wire) (g : Game Sim) : Game Sim :=
  reloadSimulation api
    { g with simulationImage := flipPixel g.cursorx g.cursory g.simulationImage }

/-- The Space key in `handleKeyboard` (main.go 73-77). -/
def pressSpace {Sim Wire : Type} (api : Engine Sim Wire) (g : Game Sim) (inp : Input) :
    Game Sim :=
  if inp.KeySpace then flipAndReload api g else g

/-- The P key in `handleKeyboard` once the debounce counter has run out
(main.go 84-88): the counter is set to 10, the pause flag is inverted, the
raster is powered down and the simulation reloaded. -/
def pressP {Sim Wire : Type} (api : Engine Sim Wire) (g : Game Sim) (inp : Input) :
    Game Sim :=
  if inp.KeyP then
    reloadSimulation api
      { g with
        key_debounce := 10
        simulationPaused := !g.simulationPaused
        simulationImage := drawPoweredDown g.simulationImage }
  else g

/-- The first `switch` of `handleKeyboard` (main.go 94-108): the cursor moves
up or down inside the field. -/
def moveCursorY {Sim : Type} (g : Game Sim) (inp : Input) : Game Sim :=
  if inp.KeyW || inp.KeyUp then
    (if g.cursory > 0 then { g with cursory := g.cursory - 1 } else g)
  else if inp.KeyS || inp.KeyDown then
    (if g.cursory < g.height - 1 then { g with cursory := g.cursory + 1 } else g)
  else g

/-- The second `switch` of `handleKeyboard` (main.go 110-121): the cursor
moves left or right inside the field. -/
def moveCursorX {Sim : Type} (g : Game Sim) (inp : Input) : Game Sim :=
  if inp.KeyA || inp.KeyLeft then
    (if g.cursorx > 0 then { g with cursorx := g.cursorx - 1 } else g)
  else if inp.KeyD || inp.KeyRight then
    (if g.cursorx < g.width - 1 then { g with cursorx := g.cursorx + 1 } else g)
  else g

/-- Source `Game.handleKeyboard` (main.go 68-124): the game after the call
and the returned error (`none` for `nil`).  While P is held and the debounce
counter is positive the function counts it down and returns at once
(main.go 80-83).  `saveImage` (key F) encodes the raster into a file and
leaves the game as it is. -/
def handleKeyboard {Sim Wire : Type} (api : Engine Sim Wire) (g : Game Sim) (inp : Input) :
    Game Sim × Option String :=
  if inp.KeyEscape then (g, some "closing game")
  else if inp.KeyP && decide ((pressSpace api g inp).key_debounce > 0) then
    ({ pressSpace api g inp with key_debounce := (pressSpace api g inp).key_debounce - 1 }, none)
  else
    (moveCursorX (moveCursorY (pressP api (pressSpace api g inp) inp) inp) inp, none)

/-- The first part of `handleMouse` (main.go 129-140): the mouse position is
recorded, and the cursor follows the mouse when the mouse has moved. -/
def trackMouse {Sim : Type} (g : Game Sim) (inp : Input) : Game Sim :=
  let x := inp.CursorX
  let y := inp.CursorY
  if x ≠ g.mouse_cursorx ∨ y ≠ g.mouse_cursory then
    { g with mouse_cursorx := x, mouse_cursory := y, cursorx := x, cursory := y }
  else
    { g with mouse_cursorx := x, mouse_cursory := y }

/-- The second part of `handleMouse` (main.go 142-163): the left button. -/
def leftButton {Sim Wire : Type} (api : Engine Sim Wire) (g : Game Sim) (inp : Input) :
    Game Sim :=
  if inp.MouseButtonLeft then
    if !g.leftMouseButtonPressed then
      { flipAndReload api g with leftMouseButtonPressed := true }
    else if g.cursorx ≠ g.mouse_cursorx ∨ g.cursory ≠ g.mouse_cursory then
      flipAndReload api g
    else g
  else if g.leftMouseButtonPressed then { g with leftMouseButtonPressed := false }
  else g

/-- Source `Game.handleMouse` (main.go 126-164). -/
def handleMouse {Sim Wire : Type} (api : Engine Sim Wire) (g : Game Sim) (inp : Input) :
    Game Sim :=
  leftButton api (trackMouse g inp) inp

/-- One iteration of the loop over the wires in `Update` (main.go 46-58) for
wire number `i`: nothing when the charge is the same in both generations,
else one `DrawImage` of `g.wireImages[i]`.  The two slice accesses
`Palette[charge+1]` and `g.wireImages[i]` panic when out of range. -/
def drawWire {Sim Wire : Type} (api : Engine Sim Wire) (g : Game Sim) (newSimulation : Sim)
    (simulationImage : Paletted) (background : Background) (i : Nat) (wire : Wire) :
    Option Background :=
  let oldCharge := api.Charge g.simulation wire
  let charge := api.Charge newSimulation wire
  if oldCharge == charge then some background
  else
    let position := (api.Bounds wire).Min
    match simulationImage.Palette.get? (charge + 1) with
    | none => none
    | some colour =>
      match g.wireImages.get? i with
      | none => none
      | some src =>
        some { background with
               draws := background.draws ++ [⟨i, src, position.X, position.Y, colour⟩] }

/-- The loop `for i, wire := range wires` of `Update`, from wire number `i`
on. -/
def drawWires {Sim Wire : Type} (api : Engine Sim Wire) (g : Game Sim) (newSimulation : Sim)
    (simulationImage : Paletted) : Nat → List Wire → Background → Option Background
  | _, [], background => some background
  | i, wire :: rest, background =>
    match drawWire api g newSimulation simulationImage background i wire with
    | none => none
    | some background => drawWires api g newSimulation simulationImage (i + 1) rest background

/-- The variable `newSimulation` of `Update` (main.go 36-41): the simulation
itself while the game is paused, its successor under `Step` otherwise. -/
def newSimulation {Sim Wire : Type} (api : Engine Sim Wire) (g : Game Sim) : Sim :=
  if g.simulationPaused then g.simulation else api.Step g.simulation

/-- The first part of `Game.Update` (main.go 35-59): the next generation is
chosen, drawn into the raster, the background is rebuilt and the changed
wires are drawn on it, and `g.simulation` is replaced.  `none` is a panic. -/
def advance {Sim Wire : Type} (api : Engine Sim Wire) (g : Game Sim) : Option (Game Sim) :=
  let newSimulation := newSimulation api g
  let simulationImage := api.Draw newSimulation g.simulationImage
  let background := NewImageFromImage simulationImage
  let wires := api.Wires g.simulation
  match drawWires api g newSimulation simulationImage 0 wires background with
  | none => none
  | some background =>
    some { g with
           simulationImage := simulationImage
           backgroundImage := background
           simulation := newSimulation }

/-- Source `Game.Update` (main.go 34-66): `advance`, then the two input
handlers.  The value that `handleKeyboard` returns is not used and `Update`
returns `nil` (here `none`) on every path; the outer `none` is a panic. -/
def Update {Sim Wire : Type} (api : Engine Sim Wire) (g : Game Sim) (inp : Input) :
    Option (Game Sim × Option String) :=
  match advance api g with
  | none => none
  | some g =>
    let g := (handleKeyboard api g inp).1
    let g := handleMouse api g inp
    some (g, none)

/-- The palette built in `main` (main.go 211-220). -/
def mainPalette : List Color :=
  [ Color.Black,
    Color.RGBA 0x88 0 0 0xFF,
    Color.RGBA 0xFF 0 0 0xFF,
    Color.RGBA 0xFF 0x22 0 0xFF,
    Color.RGBA 0xFF 0x44 0 0xFF,
    Color.RGBA 0xFF 0x66 0 0xFF,
    Color.RGBA 0xFF 0x88 0 0xFF,
    Color.RGBA 0xFF 0xAA 0 0xFF ]

/-- The game that `main` hands to `ebiten.RunGame` (main.go 202-224), for
the values of the flags `-width`, `-height` and `-scale`.  Go's `/` on `int`
truncates toward zero. -/
def mainGame {Sim Wire : Type} (api : Engine Sim Wire) (width height scale : Int) : Game Sim :=
  let simulationImage := NewPaletted (Rect 0 0 width height) mainPalette
  let game : Game Sim :=
    { simulation := api.New simulationImage
      simulationImage := simulationImage
      backgroundImage := NewImageFromImage simulationImage
      wireImages := []
      width := width
      height := height
      scale := scale
      cursorx := Int.tdiv width 2
      cursory := Int.tdiv height 2
      mouse_cursorx := 0
      mouse_cursory := 0
      leftMouseButtonPressed := false
      simulationPaused := false
      key_debounce := 0 }
  reloadSimulation api game

/-- The game states that `ebiten.RunGame` can reach: the one built by
`main`, and every state left by an `Update` that returned. -/
inductive Reachable {Sim Wire : Type} (api : Engine Sim Wire) (width height scale : Int) :
    Game Sim → Prop where
  | start : Reachable api width height scale (mainGame api width height scale)
  | update (g g1 : Game Sim) (inp : Input) (e : Option String) :
      Reachable api width height scale g → Update api g inp = some (g1, e) →
      Reachable api width height scale g1

/-- A run of consecutive `handleKeyboard` calls, one per input. -/
def keyboardRun {Sim Wire : Type} (api : Engine Sim Wire) : Game Sim → List Input → Game Sim
  | g, [] => g
  | g, inp :: rest => keyboardRun api (handleKeyboard api g inp).1 rest

/-! ## A small engine and rasters for the examples -/

/-- A raster of two rows of two pixels with the palette of `main`, laid out as
`image.NewPaletted(image.Rect(0, 0, 2, 2), p)` lays it out, holding the four
given indices (first row `a b`, second row `c d`). -/
def raster2x2 (a b c d : Nat) : Paletted :=
  { Pix := [a, b, c, d]
    Stride := 2
    Rect := Rect 0 0 2 2
    Palette := mainPalette
    stride_ok := by decide
    pix_ok := by
      intro _ _
      show ((Rect 0 0 2 2).Dy - 1) * 2 + (Rect 0 0 2 2).Dx ≤ ((4 : Nat) : Int)
      decide }

/-- The buffer `pix` after the charges of `s` (pairs of offset and charge)
have been stored into it. -/
def storeCharges : List (Nat × Nat) → List Nat → List Nat
  | [], pix => pix
  | e :: rest, pix => storeCharges rest (pix.set e.1 e.2)

/-- An engine to run the game on: each conductive byte of `Pix` is a wire of
its own, named by its offset, and its charge is the stored index; a step lets
every charge decay as the engine of the spec does for a wire without a peak
neighbour (1 stays 1, 2..6 count up by one, 7 falls back to 1); `Draw` stores
the charges into the raster. -/
def exampleEngine : Engine (List (Nat × Nat)) Nat where
  New img := img.Pix.enum.filter (fun e => e.2 != 0)
  Step s := s.map (fun e => (e.1, if 2 ≤ e.2 ∧ e.2 < 7 then e.2 + 1 else 1))
  Draw s img :=
    { img with
      Pix := storeCharges s img.Pix
      pix_ok := by
        have h : ∀ (l : List (Nat × Nat)) (pix : List Nat),
            (storeCharges l pix).length = pix.length := by
          intro l
          induction l with
          | nil => intro pix; rfl
          | cons e rest ih => intro pix; simp [storeCharges, ih]
        rw [h]
        exact img.pix_ok }
  Wires s := s.map Prod.fst
  Charge s wire := (s.lookup wire).getD 0
  Bounds wire := Rect (wire : Int) 0 ((wire : Int) + 1) 1
  Pixels wire := [⟨(wire : Int), 0⟩]

/-- The game of `main` for a 2 x 2 raster, with the raster replaced by `img`
and the simulation reloaded from it. -/
def exampleGame (img : Paletted) : Game (List (Nat × Nat)) :=
  reloadSimulation exampleEngine
    { mainGame exampleEngine 2 2 12 with simulationImage := img, cursorx := 0, cursory := 0 }

/-- A paused game whose raster holds a pulse: wire 0 with charge 5 and wire 3
with charge 1. -/
def pausedGame : Game (List (Nat × Nat)) :=
  { exampleGame (raster2x2 5 0 0 1) with simulationPaused := true }

/-- A tick with only the Space key pressed, the cursor at the origin. -/
def spaceInput : Input := { Input.idle 0 0 with KeySpace := true }

/-- A tick with only the Escape key pressed, the cursor at the origin. -/
def escapeInput : Input := { Input.idle 0 0 with KeyEscape := true }

/-- A tick with the Space and P keys pressed, the cursor at the origin. -/
def spaceAndPInput : Input := { Input.idle 0 0 with KeySpace := true, KeyP := true }

/-- A tick with only the P key pressed, the cursor at the origin. -/
def pInput : Input := { Input.idle 0 0 with KeyP := true }

/-- A tick with only the left mouse button pressed, the cursor at `(1, 0)`. -/
def clickInput : Input := { Input.idle 1 0 with MouseButtonLeft := true }

/-! ## Paletted images: reading after writing -/

theorem Point.In_iff (x y : Int) (r : Rectangle) :
    Point.In ⟨x, y⟩ r = true ↔ r.Min.X ≤ x ∧ x < r.Max.X ∧ r.Min.Y ≤ y ∧ y < r.Max.Y := by
  simp [Point.In, and_assoc]

/-- The offset of a point of the bounds is not negative. -/
theorem Paletted.PixOffset_nonneg (p : Paletted) (x y : Int)
    (h : Point.In ⟨x, y⟩ p.Rect = true) : 0 ≤ p.PixOffset x y := by
  rw [Point.In_iff] at h
  obtain ⟨h1, h2, h3, h4⟩ := h
  have hs := p.stride_ok
  unfold Rectangle.Dx at hs
  unfold Paletted.PixOffset
  have : 0 ≤ (y - p.Rect.Min.Y) * p.Stride := mul_nonneg (by omega) (by omega)
  omega

/-- The offset of a point of the bounds is an index of `Pix`: the slice
access of `ColorIndexAt` and `SetColorIndex` is in range. -/
theorem Paletted.PixOffset_lt_length (p : Paletted) (x y : Int)
    (h : Point.In ⟨x, y⟩ p.Rect = true) : (p.PixOffset x y).toNat < p.Pix.length := by
  have h0 := p.PixOffset_nonneg x y h
  rw [Point.In_iff] at h
  obtain ⟨h1, h2, h3, h4⟩ := h
  have hs := p.stride_ok
  have hp := p.pix_ok
  unfold Rectangle.Dx at hs hp
  unfold Rectangle.Dy at hp
  have hp2 := hp (by omega) (by omega)
  have hm : (y - p.Rect.Min.Y) * p.Stride ≤ (p.Rect.Max.Y - p.Rect.Min.Y - 1) * p.Stride :=
    mul_le_mul_of_nonneg_right (by omega) (by omega)
  unfold Paletted.PixOffset at h0 ⊢
  omega

/-- Two points of the bounds with the same offset are the same point. -/
theorem Paletted.PixOffset_inj (p : Paletted) (x y a b : Int)
    (h : Point.In ⟨x, y⟩ p.Rect = true) (k : Point.In ⟨a, b⟩ p.Rect = true)
    (e : p.PixOffset x y = p.PixOffset a b) : x = a ∧ y = b := by
  rw [Point.In_iff] at h k
  obtain ⟨h1, h2, h3, h4⟩ := h
  obtain ⟨k1, k2, k3, k4⟩ := k
  have hs := p.stride_ok
  unfold Rectangle.Dx at hs
  unfold Paletted.PixOffset at e
  have hy : y = b := by
    by_contra hne
    rcases lt_or_gt_of_ne hne with hlt | hgt
    · have hm : 1 * p.Stride ≤ (b - y) * p.Stride :=
        mul_le_mul_of_nonneg_right (by omega) (by omega)
      have hr : (b - y) * p.Stride =
          (b - p.Rect.Min.Y) * p.Stride - (y - p.Rect.Min.Y) * p.Stride := by
        ring
      omega
    · have hm : 1 * p.Stride ≤ (y - b) * p.Stride :=
        mul_le_mul_of_nonneg_right (by omega) (by omega)
      have hr : (y - b) * p.Stride =
          (y - p.Rect.Min.Y) * p.Stride - (b - p.Rect.Min.Y) * p.Stride := by
        ring
      omega
  subst hy
  constructor
  · omega
  · rfl

theorem Paletted.Rect_SetColorIndex (p : Paletted) (x y : Int) (v : Nat) :
    (p.SetColorIndex x y v).Rect = p.Rect := by
  unfold Paletted.SetColorIndex
  split <;> rfl

theorem Paletted.Palette_SetColorIndex (p : Paletted) (x y : Int) (v : Nat) :
    (p.SetColorIndex x y v).Palette = p.Palette := by
  unfold Paletted.SetColorIndex
  split <;> rfl

/-- Reading a slice after one write. -/
theorem getD_set_eq_ite (l : List Nat) (i j v : Nat) :
    (l.set i v).getD j 0 = if i = j ∧ i < l.length then v else l.getD j 0 := by
  simp only [List.getD_eq_getElem?_getD, List.getElem?_set]
  by_cases h : i = j
  · subst h
    by_cases hl : i < l.length
    · simp [hl]
    · simp [hl, List.getElem?_eq_none (not_lt.mp hl)]
  · simp [h]

/-- Reading a pixel after a write: the written value at the written point
(when it lies in the bounds), the old value everywhere else. -/
theorem Paletted.ColorIndexAt_SetColorIndex (p : Paletted) (x y : Int) (v : Nat) (a b : Int) :
    (p.SetColorIndex x y v).ColorIndexAt a b =
      if a = x ∧ b = y ∧ Point.In ⟨x, y⟩ p.Rect = true then v else p.ColorIndexAt a b := by
  by_cases hin : Point.In ⟨x, y⟩ p.Rect = true
  · by_cases hab : Point.In ⟨a, b⟩ p.Rect = true
    · have hlt := p.PixOffset_lt_length x y hin
      simp only [Paletted.SetColorIndex, Paletted.ColorIndexAt, hin, hab, Bool.not_true,
        Bool.false_eq_true, if_false, getD_set_eq_ite, and_true]
      by_cases heq : a = x ∧ b = y
      · obtain ⟨rfl, rfl⟩ := heq
        simp only [Paletted.PixOffset, mul_one] at hlt ⊢
        simp [hlt]
      · have hne : (p.PixOffset x y).toNat ≠ (p.PixOffset a b).toNat := by
          intro e
          have h1 := p.PixOffset_nonneg x y hin
          have h2 := p.PixOffset_nonneg a b hab
          have e2 : p.PixOffset x y = p.PixOffset a b := by omega
          have := p.PixOffset_inj x y a b hin hab e2
          exact heq ⟨this.1.symm, this.2.symm⟩
        simp only [Paletted.PixOffset] at hne ⊢
        rw [if_neg (fun c => hne c.1), if_neg heq]
    · have hif : ¬ (a = x ∧ b = y ∧ Point.In ⟨x, y⟩ p.Rect = true) := by
        rintro ⟨rfl, rfl, _⟩
        exact hab hin
      rw [if_neg hif]
      have hr := p.Rect_SetColorIndex x y v
      unfold Paletted.ColorIndexAt
      rw [hr]
      simp [hab]
  · have hif : ¬ (a = x ∧ b = y ∧ Point.In ⟨x, y⟩ p.Rect = true) := fun c => hin c.2.2
    rw [if_neg hif]
    simp [Paletted.SetColorIndex, hin]

/-! ## `drawPoweredDown`: the two loops -/

theorem Rect_poweredDownPixel (q : Paletted) (x y : Int) :
    (poweredDownPixel q x y).Rect = q.Rect := by
  unfold poweredDownPixel
  simp only []
  split
  · exact q.Rect_SetColorIndex x y 1
  · rfl

/-- One pass of the loop body changes the pixel it looks at, and no other. -/
theorem ColorIndexAt_poweredDownPixel (q : Paletted) (x y a b : Int) :
    (poweredDownPixel q x y).ColorIndexAt a b =
      if a = x ∧ b = y then
        (if 1 < q.ColorIndexAt x y ∧ q.ColorIndexAt x y ≤ 7 then 1 else q.ColorIndexAt x y)
      else q.ColorIndexAt a b := by
  unfold poweredDownPixel
  simp only []
  by_cases hc : 1 < q.ColorIndexAt x y ∧ q.ColorIndexAt x y ≤ 7
  · have hin : Point.In ⟨x, y⟩ q.Rect = true := by
      by_contra hn
      have h0 : q.ColorIndexAt x y = 0 := by simp [Paletted.ColorIndexAt, hn]
      omega
    have hb : (decide (q.ColorIndexAt x y > 1) && decide (q.ColorIndexAt x y ≤ 7)) = true := by
      simp [hc.1, hc.2]
    rw [if_pos hb, if_pos hc, Paletted.ColorIndexAt_SetColorIndex]
    simp [hin]
  · have hb : ¬ ((decide (q.ColorIndexAt x y > 1) && decide (q.ColorIndexAt x y ≤ 7)) = true) := by
      simpa using hc
    rw [if_neg hb, if_neg hc]
    by_cases h : a = x ∧ b = y
    · obtain ⟨rfl, rfl⟩ := h
      simp
    · rw [if_neg h]

/-- The inner loop after its first `n` passes in row `y`. -/
theorem poweredDownRow_fold (y : Int) (n : Nat) (img : Paletted) :
    ((List.range n).foldl (fun (acc : Paletted) (x : Nat) => poweredDownPixel acc (x : Int) y) img).Rect = img.Rect ∧
    ∀ a b : Int,
      ((List.range n).foldl (fun (acc : Paletted) (x : Nat) => poweredDownPixel acc (x : Int) y)
          img).ColorIndexAt a b =
        if b = y ∧ 0 ≤ a ∧ a < n then
          (if 1 < img.ColorIndexAt a b ∧ img.ColorIndexAt a b ≤ 7 then 1
           else img.ColorIndexAt a b)
        else img.ColorIndexAt a b := by
  induction n with
  | zero =>
    refine ⟨rfl, fun a b => ?_⟩
    have : ¬ (b = y ∧ 0 ≤ a ∧ a < ((0 : Nat) : Int)) := by
      rintro ⟨_, h1, h2⟩
      simp at h2
      omega
    rw [if_neg this]
    rfl
  | succ n ih =>
    obtain ⟨ihR, ihC⟩ := ih
    rw [List.range_succ, List.foldl_append]
    simp only [List.foldl_cons, List.foldl_nil]
    refine ⟨by rw [Rect_poweredDownPixel, ihR], fun a b => ?_⟩
    rw [ColorIndexAt_poweredDownPixel, ihC a b, ihC n y]
    have hnn : ¬ (y = y ∧ (0 : Int) ≤ n ∧ (n : Int) < n) := by
      rintro ⟨_, _, h⟩
      omega
    rw [if_neg hnn]
    by_cases h1 : a = (n : Int) ∧ b = y
    · obtain ⟨rfl, rfl⟩ := h1
      have h2 : b = b ∧ (0 : Int) ≤ n ∧ (n : Int) < ((n + 1 : Nat) : Int) := by
        refine ⟨rfl, by omega, by push_cast; omega⟩
      rw [if_pos ⟨rfl, rfl⟩, if_pos h2]
    · rw [if_neg h1]
      by_cases h3 : b = y ∧ 0 ≤ a ∧ a < (n : Int)
      · have h4 : b = y ∧ 0 ≤ a ∧ a < ((n + 1 : Nat) : Int) := by
          refine ⟨h3.1, h3.2.1, by push_cast; omega⟩
        rw [if_pos h3, if_pos h4]
      · have h4 : ¬ (b = y ∧ 0 ≤ a ∧ a < ((n + 1 : Nat) : Int)) := by
          rintro ⟨e1, e2, e3⟩
          push_cast at e3
          by_cases e4 : a = (n : Int)
          · exact h1 ⟨e4, e1⟩
          · exact h3 ⟨e1, e2, by omega⟩
        rw [if_neg h3, if_neg h4]

/-- The outer loop after its first `m` rows, each `w` pixels wide. -/
theorem drawPoweredDown_fold (w m : Nat) (img : Paletted) (hw : img.Rect.Dx.toNat = w) :
    ((List.range m).foldl (fun (acc : Paletted) (y : Nat) => poweredDownRow acc (y : Int)) img).Rect = img.Rect ∧
    ∀ a b : Int,
      ((List.range m).foldl (fun (acc : Paletted) (y : Nat) => poweredDownRow acc (y : Int)) img).ColorIndexAt a b =
        if (0 ≤ b ∧ b < m) ∧ 0 ≤ a ∧ a < w then
          (if 1 < img.ColorIndexAt a b ∧ img.ColorIndexAt a b ≤ 7 then 1
           else img.ColorIndexAt a b)
        else img.ColorIndexAt a b := by
  induction m with
  | zero =>
    refine ⟨rfl, fun a b => ?_⟩
    have : ¬ ((0 ≤ b ∧ b < ((0 : Nat) : Int)) ∧ 0 ≤ a ∧ a < (w : Int)) := by
      rintro ⟨⟨h1, h2⟩, _⟩
      simp at h2
      omega
    rw [if_neg this]
    rfl
  | succ m ih =>
    obtain ⟨ihR, ihC⟩ := ih
    rw [List.range_succ, List.foldl_append]
    simp only [List.foldl_cons, List.foldl_nil]
    generalize (List.range m).foldl
      (fun (acc : Paletted) (y : Nat) => poweredDownRow acc (y : Int)) img = q at ihR ihC ⊢
    have hrow := poweredDownRow_fold (m : Int) w q
    have hq : q.Bounds.Dx.toNat = w := by
      show q.Rect.Dx.toNat = w
      rw [ihR, hw]
    have hdef : poweredDownRow q (m : Int) =
        (List.range w).foldl
          (fun (acc : Paletted) (x : Nat) => poweredDownPixel acc (x : Int) (m : Int)) q := by
      show (List.range q.Bounds.Dx.toNat).foldl _ q = _
      rw [hq]
    rw [hdef]
    obtain ⟨hrR, hrC⟩ := hrow
    refine ⟨by rw [hrR, ihR], fun a b => ?_⟩
    rw [hrC a b, ihC a b]
    by_cases h1 : b = (m : Int) ∧ 0 ≤ a ∧ a < (w : Int)
    · have h2 : ¬ ((0 ≤ b ∧ b < (m : Int)) ∧ 0 ≤ a ∧ a < (w : Int)) := by
        rintro ⟨⟨_, e⟩, _⟩
        omega
      have h3 : (0 ≤ b ∧ b < ((m + 1 : Nat) : Int)) ∧ 0 ≤ a ∧ a < (w : Int) := by
        refine ⟨⟨by omega, by push_cast; omega⟩, h1.2⟩
      rw [if_pos h1, if_neg h2, if_pos h3]
    · rw [if_neg h1]
      by_cases h2 : (0 ≤ b ∧ b < (m : Int)) ∧ 0 ≤ a ∧ a < (w : Int)
      · have h3 : (0 ≤ b ∧ b < ((m + 1 : Nat) : Int)) ∧ 0 ≤ a ∧ a < (w : Int) := by
          refine ⟨⟨h2.1.1, by push_cast; omega⟩, h2.2⟩
        rw [if_pos h2, if_pos h3]
      · have h3 : ¬ ((0 ≤ b ∧ b < ((m + 1 : Nat) : Int)) ∧ 0 ≤ a ∧ a < (w : Int)) := by
          rintro ⟨⟨e1, e2⟩, e3⟩
          push_cast at e2
          by_cases e4 : b = (m : Int)
          · exact h1 ⟨e4, e3⟩
          · exact h2 ⟨⟨e1, by omega⟩, e3⟩
        rw [if_neg h2, if_neg h3]

/-- What `drawPoweredDown` leaves at every coordinate, for an image whose
bounds start at the origin. -/
theorem ColorIndexAt_drawPoweredDown (img : Paletted) (h0 : img.Bounds.Min = ⟨0, 0⟩)
    (a b : Int) :
    (drawPoweredDown img).ColorIndexAt a b =
      if 1 < img.ColorIndexAt a b ∧ img.ColorIndexAt a b ≤ 7 then 1
      else img.ColorIndexAt a b := by
  have h := (drawPoweredDown_fold img.Rect.Dx.toNat img.Rect.Dy.toNat img rfl).2 a b
  unfold drawPoweredDown Paletted.Bounds
  rw [h]
  by_cases hin : Point.In ⟨a, b⟩ img.Rect = true
  · have hin2 := (Point.In_iff a b img.Rect).mp hin
    have hx : img.Rect.Min.X = 0 := by
      have := congrArg Point.X h0
      simpa [Paletted.Bounds] using this
    have hy : img.Rect.Min.Y = 0 := by
      have := congrArg Point.Y h0
      simpa [Paletted.Bounds] using this
    have hc : (0 ≤ b ∧ b < (img.Rect.Dy.toNat : Int)) ∧ 0 ≤ a ∧ a < (img.Rect.Dx.toNat : Int) := by
      unfold Rectangle.Dx Rectangle.Dy
      omega
    rw [if_pos hc]
  · have hz : img.ColorIndexAt a b = 0 := by simp [Paletted.ColorIndexAt, hin]
    rw [hz]
    simp

/-! ## The raster edits: `flipPixel` and `drawPoweredDown` -/

/-- C1. For every paletted image and every coordinate `(x, y)` inside its
bounds, `flipPixel` leaves 1 at `(x, y)` if the index there was 0 and 0
otherwise; every other coordinate reads as before, every other byte of the
buffer is as before, and bounds and palette are untouched. -/
theorem flipPixel_toggles (img : Paletted) (x y : Int)
    (h : Point.In ⟨x, y⟩ img.Bounds = true) :
    (flipPixel x y img).ColorIndexAt x y = (if img.ColorIndexAt x y = 0 then 1 else 0) ∧
    (∀ a b : Int, ¬ (a = x ∧ b = y) →
      (flipPixel x y img).ColorIndexAt a b = img.ColorIndexAt a b) ∧
    (∀ i : Nat, i ≠ (img.PixOffset x y).toNat →
      (flipPixel x y img).Pix.getD i 0 = img.Pix.getD i 0) ∧
    (flipPixel x y img).Bounds = img.Bounds ∧
    (flipPixel x y img).Palette = img.Palette := by
  have hin : Point.In ⟨x, y⟩ img.Rect = true := h
  have hpix : ∀ v : Nat, ∀ i : Nat, i ≠ (img.PixOffset x y).toNat →
      (img.SetColorIndex x y v).Pix.getD i 0 = img.Pix.getD i 0 := by
    intro v i hi
    simp only [Paletted.SetColorIndex, hin, Bool.not_true, Bool.false_eq_true, if_false,
      getD_set_eq_ite]
    rw [if_neg (fun c => hi c.1.symm)]
  unfold flipPixel
  simp only []
  by_cases hc : img.ColorIndexAt x y = 0
  · have hb : (img.ColorIndexAt x y == 0) = true := by simp [hc]
    rw [if_pos hb, if_pos hc]
    refine ⟨?_, ?_, hpix 1, ?_, ?_⟩
    · rw [Paletted.ColorIndexAt_SetColorIndex]
      simp [hin]
    · intro a b hab
      rw [Paletted.ColorIndexAt_SetColorIndex, if_neg (fun c => hab ⟨c.1, c.2.1⟩)]
    · exact img.Rect_SetColorIndex x y 1
    · exact img.Palette_SetColorIndex x y 1
  · have hb : ¬ ((img.ColorIndexAt x y == 0) = true) := by simpa using hc
    rw [if_neg hb, if_neg hc]
    refine ⟨?_, ?_, hpix 0, ?_, ?_⟩
    · rw [Paletted.ColorIndexAt_SetColorIndex]
      simp [hin]
    · intro a b hab
      rw [Paletted.ColorIndexAt_SetColorIndex, if_neg (fun c => hab ⟨c.1, c.2.1⟩)]
    · exact img.Rect_SetColorIndex x y 0
    · exact img.Palette_SetColorIndex x y 0

/-- C1 at the pixel `(1, 0)` of the raster `0 3 / 1 7`, which holds the pulse
value 3. -/
theorem flipPixel_toggles_witness :
    Point.In ⟨1, 0⟩ (raster2x2 0 3 1 7).Bounds = true ∧
    (flipPixel 1 0 (raster2x2 0 3 1 7)).ColorIndexAt 1 0 = 0 ∧
    (flipPixel 1 0 (raster2x2 0 3 1 7)).ColorIndexAt 1 1 = 7 ∧
    (flipPixel 1 0 (raster2x2 0 3 1 7)).Pix = [0, 0, 1, 7] :=
  ⟨by decide,
   (flipPixel_toggles (raster2x2 0 3 1 7) 1 0 (by decide)).1,
   (flipPixel_toggles (raster2x2 0 3 1 7) 1 0 (by decide)).2.1 1 1 (by decide),
   by decide⟩

/-- C4. For every paletted image whose bounds start at `(0, 0)`,
`drawPoweredDown` leaves 1 wherever the index was in 2..7 and leaves every
other index (0, 1, above 7) as it was, the bounds and the palette too; hence
if every index was at most 7, afterwards every index is 0 or 1 and a pixel is
non-zero afterwards exactly when it was non-zero before. -/
theorem drawPoweredDown_spec (img : Paletted) (h0 : img.Bounds.Min = ⟨0, 0⟩) :
    (∀ x y : Int, (drawPoweredDown img).ColorIndexAt x y =
      if 2 ≤ img.ColorIndexAt x y ∧ img.ColorIndexAt x y ≤ 7 then 1
      else img.ColorIndexAt x y) ∧
    (drawPoweredDown img).Bounds = img.Bounds ∧
    ((∀ x y : Int, img.ColorIndexAt x y ≤ 7) →
      ∀ x y : Int,
        ((drawPoweredDown img).ColorIndexAt x y = 0 ∨
          (drawPoweredDown img).ColorIndexAt x y = 1) ∧
        ((drawPoweredDown img).ColorIndexAt x y ≠ 0 ↔ img.ColorIndexAt x y ≠ 0)) := by
  have hmain : ∀ x y : Int, (drawPoweredDown img).ColorIndexAt x y =
      if 2 ≤ img.ColorIndexAt x y ∧ img.ColorIndexAt x y ≤ 7 then 1
      else img.ColorIndexAt x y := by
    intro x y
    rw [ColorIndexAt_drawPoweredDown img h0 x y]
    rfl
  refine ⟨hmain, ?_, ?_⟩
  · exact (drawPoweredDown_fold img.Rect.Dx.toNat img.Rect.Dy.toNat img rfl).1
  · intro hle x y
    rw [hmain x y]
    have h7 := hle x y
    by_cases hc : 2 ≤ img.ColorIndexAt x y ∧ img.ColorIndexAt x y ≤ 7
    · rw [if_pos hc]
      refine ⟨Or.inr rfl, ?_⟩
      constructor
      · intro _
        omega
      · intro _
        exact one_ne_zero
    · rw [if_neg hc]
      refine ⟨?_, Iff.rfl⟩
      omega

/-- C4 on the raster `0 3 / 1 7`: the two pulse values become 1. -/
theorem drawPoweredDown_spec_witness :
    (raster2x2 0 3 1 7).Bounds.Min = ⟨0, 0⟩ ∧
    (drawPoweredDown (raster2x2 0 3 1 7)).ColorIndexAt 1 0 = 1 ∧
    (drawPoweredDown (raster2x2 0 3 1 7)).ColorIndexAt 0 0 = 0 ∧
    (drawPoweredDown (raster2x2 0 3 1 7)).Pix = [0, 1, 1, 1] :=
  ⟨by decide,
   (drawPoweredDown_spec (raster2x2 0 3 1 7) (by decide)).1 1 0,
   (drawPoweredDown_spec (raster2x2 0 3 1 7) (by decide)).1 0 0,
   by decide⟩

/-! ## `Update`: the loop over the wires -/

/-- The loop over the wires returns when each of its slice accesses is in
range, and then it has appended one draw call for every wire whose charge
changed, in the order of the wires, each with the image found in the slot of
that wire. -/
theorem drawWires_spec {Sim Wire : Type} (api : Engine Sim Wire) (g : Game Sim) (next : Sim)
    (img : Paletted) :
    ∀ (wires : List Wire) (i : Nat) (bg : Background),
      i + wires.length ≤ g.wireImages.length →
      (∀ wire ∈ wires, api.Charge g.simulation wire ≠ api.Charge next wire →
        api.Charge next wire + 1 < img.Palette.length) →
      ∃ bg1, drawWires api g next img i wires bg = some bg1 ∧
        bg1.base = bg.base ∧
        bg1.draws.map DrawCall.slot =
          bg.draws.map DrawCall.slot ++
            ((wires.enumFrom i).filter
              (fun e => api.Charge g.simulation e.2 != api.Charge next e.2)).map Prod.fst ∧
        (∀ c ∈ bg1.draws, c ∈ bg.draws ∨ g.wireImages.get? c.slot = some c.src) := by
  intro wires
  induction wires with
  | nil =>
    intro i bg _ _
    exact ⟨bg, rfl, rfl, by simp, fun c hc => Or.inl hc⟩
  | cons wire rest ih =>
    intro i bg hlen hpal
    have hlen2 : (i + 1) + rest.length ≤ g.wireImages.length := by
      simp only [List.length_cons] at hlen
      omega
    have hpal2 : ∀ w ∈ rest, api.Charge g.simulation w ≠ api.Charge next w →
        api.Charge next w + 1 < img.Palette.length :=
      fun w hw => hpal w (List.mem_cons_of_mem _ hw)
    by_cases hc : api.Charge g.simulation wire = api.Charge next wire
    · have hstep : drawWire api g next img bg i wire = some bg := by
        simp [drawWire, hc]
      obtain ⟨bg1, h1, h2, h3, h4⟩ := ih (i + 1) bg hlen2 hpal2
      refine ⟨bg1, ?_, h2, ?_, h4⟩
      · simp only [drawWires, hstep]
        exact h1
      · rw [h3]
        simp [List.enumFrom_cons, List.filter_cons, hc]
    · have hp := hpal wire (List.mem_cons_self _ _) hc
      have hi : i < g.wireImages.length := by
        simp only [List.length_cons] at hlen
        omega
      obtain ⟨colour, hcol⟩ : ∃ colour, img.Palette.get? (api.Charge next wire + 1) = some colour :=
        ⟨img.Palette.get ⟨_, hp⟩, List.get?_eq_get hp⟩
      obtain ⟨src, hsrc⟩ : ∃ src, g.wireImages.get? i = some src :=
        ⟨g.wireImages.get ⟨_, hi⟩, List.get?_eq_get hi⟩
      have hstep : drawWire api g next img bg i wire =
          some { bg with
                 draws := bg.draws ++
                   [⟨i, src, (api.Bounds wire).Min.X, (api.Bounds wire).Min.Y, colour⟩] } := by
        simp only [drawWire]
        rw [if_neg (by simpa using hc), hcol, hsrc]
      obtain ⟨bg1, h1, h2, h3, h4⟩ := ih (i + 1)
        { bg with
          draws := bg.draws ++
            [⟨i, src, (api.Bounds wire).Min.X, (api.Bounds wire).Min.Y, colour⟩] }
        hlen2 hpal2
      refine ⟨bg1, ?_, h2, ?_, ?_⟩
      · simp only [drawWires, hstep]
        exact h1
      · rw [h3]
        simp [List.enumFrom_cons, List.filter_cons, hc]
      · intro c hcm
        rcases h4 c hcm with h | h
        · simp only [List.mem_append, List.mem_singleton] at h
          rcases h with h | h
          · exact Or.inl h
          · subst h
            exact Or.inr hsrc
        · exact Or.inr h


/-- Whenever the loop over the wires returns, it has appended one draw call
for every wire whose charge changed, in the order of the wires, each with the
image found in the slot of that wire. -/
theorem drawWires_some_spec {Sim Wire : Type} (api : Engine Sim Wire) (g : Game Sim)
    (next : Sim) (img : Paletted) :
    ∀ (wires : List Wire) (i : Nat) (bg bg1 : Background),
      drawWires api g next img i wires bg = some bg1 →
      bg1.draws.map DrawCall.slot =
          bg.draws.map DrawCall.slot ++
            ((wires.enumFrom i).filter
              (fun e => api.Charge g.simulation e.2 != api.Charge next e.2)).map Prod.fst ∧
        (∀ c ∈ bg1.draws, c ∈ bg.draws ∨ g.wireImages.get? c.slot = some c.src) := by
  intro wires
  induction wires with
  | nil =>
    intro i bg bg1 h
    simp only [drawWires, Option.some.injEq] at h
    subst h
    exact ⟨by simp, fun c hc => Or.inl hc⟩
  | cons wire rest ih =>
    intro i bg bg1 h
    simp only [drawWires] at h
    by_cases hc : api.Charge g.simulation wire = api.Charge next wire
    · have hstep : drawWire api g next img bg i wire = some bg := by
        simp [drawWire, hc]
      rw [hstep] at h
      obtain ⟨h3, h4⟩ := ih (i + 1) bg bg1 h
      refine ⟨?_, h4⟩
      rw [h3]
      simp [List.enumFrom_cons, List.filter_cons, hc]
    · cases hcol : img.Palette.get? (api.Charge next wire + 1) with
      | none =>
        have hstep : drawWire api g next img bg i wire = none := by
          simp only [drawWire]
          rw [if_neg (by simpa using hc), hcol]
        rw [hstep] at h
        exact absurd h (by simp)
      | some colour =>
        cases hsrc : g.wireImages.get? i with
        | none =>
          have hstep : drawWire api g next img bg i wire = none := by
            simp only [drawWire]
            rw [if_neg (by simpa using hc), hcol, hsrc]
          rw [hstep] at h
          exact absurd h (by simp)
        | some src =>
          have hstep : drawWire api g next img bg i wire =
              some { bg with
                     draws := bg.draws ++
                       [⟨i, src, (api.Bounds wire).Min.X, (api.Bounds wire).Min.Y, colour⟩] } := by
            simp only [drawWire]
            rw [if_neg (by simpa using hc), hcol, hsrc]
          rw [hstep] at h
          obtain ⟨h3, h4⟩ := ih (i + 1) _ bg1 h
          refine ⟨?_, ?_⟩
          · rw [h3]
            simp [List.enumFrom_cons, List.filter_cons, hc]
          · intro c hcm
            rcases h4 c hcm with h5 | h5
            · simp only [List.mem_append, List.mem_singleton] at h5
              rcases h5 with h5 | h5
              · exact Or.inl h5
              · subst h5
                exact Or.inr hsrc
            · exact Or.inr h5

/-! ## The input handlers: what each stage leaves alone -/

@[simp]
theorem reloadSimulation_simulation {Sim Wire : Type} (api : Engine Sim Wire) (g : Game Sim) :
    (reloadSimulation api g).simulation = api.New g.simulationImage := rfl

@[simp]
theorem reloadSimulation_wireImages {Sim Wire : Type} (api : Engine Sim Wire) (g : Game Sim) :
    (reloadSimulation api g).wireImages =
      (api.Wires (api.New g.simulationImage)).map (fun wire => drawMask api wire) := rfl

@[simp]
theorem reloadSimulation_simulationImage {Sim Wire : Type} (api : Engine Sim Wire)
    (g : Game Sim) :
    (reloadSimulation api g).simulationImage =
      api.Draw (api.New g.simulationImage) g.simulationImage := rfl

@[simp]
theorem reloadSimulation_backgroundImage {Sim Wire : Type} (api : Engine Sim Wire) (g : Game Sim) :
    (reloadSimulation api g).backgroundImage = g.backgroundImage := by
  rfl

@[simp]
theorem reloadSimulation_key_debounce {Sim Wire : Type} (api : Engine Sim Wire) (g : Game Sim) :
    (reloadSimulation api g).key_debounce = g.key_debounce := by
  rfl

@[simp]
theorem reloadSimulation_simulationPaused {Sim Wire : Type} (api : Engine Sim Wire) (g : Game Sim) :
    (reloadSimulation api g).simulationPaused = g.simulationPaused := by
  rfl

@[simp]
theorem reloadSimulation_leftMouseButtonPressed {Sim Wire : Type} (api : Engine Sim Wire) (g : Game Sim) :
    (reloadSimulation api g).leftMouseButtonPressed = g.leftMouseButtonPressed := by
  rfl

@[simp]
theorem flipAndReload_simulation {Sim Wire : Type} (api : Engine Sim Wire) (g : Game Sim) :
    (flipAndReload api g).simulation =
      api.New (flipPixel g.cursorx g.cursory g.simulationImage) := rfl

@[simp]
theorem flipAndReload_wireImages {Sim Wire : Type} (api : Engine Sim Wire) (g : Game Sim) :
    (flipAndReload api g).wireImages =
      (api.Wires (api.New (flipPixel g.cursorx g.cursory g.simulationImage))).map
        (fun wire => drawMask api wire) := rfl

@[simp]
theorem flipAndReload_simulationImage {Sim Wire : Type} (api : Engine Sim Wire)
    (g : Game Sim) :
    (flipAndReload api g).simulationImage =
      api.Draw (api.New (flipPixel g.cursorx g.cursory g.simulationImage))
        (flipPixel g.cursorx g.cursory g.simulationImage) := rfl

@[simp]
theorem flipAndReload_backgroundImage {Sim Wire : Type} (api : Engine Sim Wire) (g : Game Sim) :
    (flipAndReload api g).backgroundImage = g.backgroundImage := by
  rfl

@[simp]
theorem flipAndReload_key_debounce {Sim Wire : Type} (api : Engine Sim Wire) (g : Game Sim) :
    (flipAndReload api g).key_debounce = g.key_debounce := by
  rfl

@[simp]
theorem flipAndReload_simulationPaused {Sim Wire : Type} (api : Engine Sim Wire) (g : Game Sim) :
    (flipAndReload api g).simulationPaused = g.simulationPaused := by
  rfl

@[simp]
theorem flipAndReload_leftMouseButtonPressed {Sim Wire : Type} (api : Engine Sim Wire) (g : Game Sim) :
    (flipAndReload api g).leftMouseButtonPressed = g.leftMouseButtonPressed := by
  rfl

@[simp]
theorem pressSpace_backgroundImage {Sim Wire : Type} (api : Engine Sim Wire) (g : Game Sim) (inp : Input) :
    (pressSpace api g inp).backgroundImage = g.backgroundImage := by
  unfold pressSpace
  split <;> rfl

@[simp]
theorem pressSpace_key_debounce {Sim Wire : Type} (api : Engine Sim Wire) (g : Game Sim) (inp : Input) :
    (pressSpace api g inp).key_debounce = g.key_debounce := by
  unfold pressSpace
  split <;> rfl

@[simp]
theorem pressSpace_simulationPaused {Sim Wire : Type} (api : Engine Sim Wire) (g : Game Sim) (inp : Input) :
    (pressSpace api g inp).simulationPaused = g.simulationPaused := by
  unfold pressSpace
  split <;> rfl

@[simp]
theorem pressP_backgroundImage {Sim Wire : Type} (api : Engine Sim Wire) (g : Game Sim) (inp : Input) :
    (pressP api g inp).backgroundImage = g.backgroundImage := by
  unfold pressP
  split <;> rfl

@[simp]
theorem moveCursorY_simulation {Sim : Type} (g : Game Sim) (inp : Input) :
    (moveCursorY g inp).simulation = g.simulation := by
  unfold moveCursorY
  split_ifs <;> rfl

@[simp]
theorem moveCursorY_simulationImage {Sim : Type} (g : Game Sim) (inp : Input) :
    (moveCursorY g inp).simulationImage = g.simulationImage := by
  unfold moveCursorY
  split_ifs <;> rfl

@[simp]
theorem moveCursorY_wireImages {Sim : Type} (g : Game Sim) (inp : Input) :
    (moveCursorY g inp).wireImages = g.wireImages := by
  unfold moveCursorY
  split_ifs <;> rfl

@[simp]
theorem moveCursorY_backgroundImage {Sim : Type} (g : Game Sim) (inp : Input) :
    (moveCursorY g inp).backgroundImage = g.backgroundImage := by
  unfold moveCursorY
  split_ifs <;> rfl

@[simp]
theorem moveCursorY_key_debounce {Sim : Type} (g : Game Sim) (inp : Input) :
    (moveCursorY g inp).key_debounce = g.key_debounce := by
  unfold moveCursorY
  split_ifs <;> rfl

@[simp]
theorem moveCursorY_simulationPaused {Sim : Type} (g : Game Sim) (inp : Input) :
    (moveCursorY g inp).simulationPaused = g.simulationPaused := by
  unfold moveCursorY
  split_ifs <;> rfl

@[simp]
theorem moveCursorX_simulation {Sim : Type} (g : Game Sim) (inp : Input) :
    (moveCursorX g inp).simulation = g.simulation := by
  unfold moveCursorX
  split_ifs <;> rfl

@[simp]
theorem moveCursorX_simulationImage {Sim : Type} (g : Game Sim) (inp : Input) :
    (moveCursorX g inp).simulationImage = g.simulationImage := by
  unfold moveCursorX
  split_ifs <;> rfl

@[simp]
theorem moveCursorX_wireImages {Sim : Type} (g : Game Sim) (inp : Input) :
    (moveCursorX g inp).wireImages = g.wireImages := by
  unfold moveCursorX
  split_ifs <;> rfl

@[simp]
theorem moveCursorX_backgroundImage {Sim : Type} (g : Game Sim) (inp : Input) :
    (moveCursorX g inp).backgroundImage = g.backgroundImage := by
  unfold moveCursorX
  split_ifs <;> rfl

@[simp]
theorem moveCursorX_key_debounce {Sim : Type} (g : Game Sim) (inp : Input) :
    (moveCursorX g inp).key_debounce = g.key_debounce := by
  unfold moveCursorX
  split_ifs <;> rfl

@[simp]
theorem moveCursorX_simulationPaused {Sim : Type} (g : Game Sim) (inp : Input) :
    (moveCursorX g inp).simulationPaused = g.simulationPaused := by
  unfold moveCursorX
  split_ifs <;> rfl

@[simp]
theorem trackMouse_simulation {Sim : Type} (g : Game Sim) (inp : Input) :
    (trackMouse g inp).simulation = g.simulation := by
  unfold trackMouse
  simp only []
  split_ifs <;> rfl

@[simp]
theorem trackMouse_simulationImage {Sim : Type} (g : Game Sim) (inp : Input) :
    (trackMouse g inp).simulationImage = g.simulationImage := by
  unfold trackMouse
  simp only []
  split_ifs <;> rfl

@[simp]
theorem trackMouse_wireImages {Sim : Type} (g : Game Sim) (inp : Input) :
    (trackMouse g inp).wireImages = g.wireImages := by
  unfold trackMouse
  simp only []
  split_ifs <;> rfl

@[simp]
theorem trackMouse_backgroundImage {Sim : Type} (g : Game Sim) (inp : Input) :
    (trackMouse g inp).backgroundImage = g.backgroundImage := by
  unfold trackMouse
  simp only []
  split_ifs <;> rfl

@[simp]
theorem trackMouse_key_debounce {Sim : Type} (g : Game Sim) (inp : Input) :
    (trackMouse g inp).key_debounce = g.key_debounce := by
  unfold trackMouse
  simp only []
  split_ifs <;> rfl

@[simp]
theorem trackMouse_simulationPaused {Sim : Type} (g : Game Sim) (inp : Input) :
    (trackMouse g inp).simulationPaused = g.simulationPaused := by
  unfold trackMouse
  simp only []
  split_ifs <;> rfl

@[simp]
theorem trackMouse_leftMouseButtonPressed {Sim : Type} (g : Game Sim) (inp : Input) :
    (trackMouse g inp).leftMouseButtonPressed = g.leftMouseButtonPressed := by
  unfold trackMouse
  simp only []
  split_ifs <;> rfl

@[simp]
theorem leftButton_backgroundImage {Sim Wire : Type} (api : Engine Sim Wire) (g : Game Sim) (inp : Input) :
    (leftButton api g inp).backgroundImage = g.backgroundImage := by
  unfold leftButton
  split_ifs <;> rfl

@[simp]
theorem leftButton_key_debounce {Sim Wire : Type} (api : Engine Sim Wire) (g : Game Sim) (inp : Input) :
    (leftButton api g inp).key_debounce = g.key_debounce := by
  unfold leftButton
  split_ifs <;> rfl

@[simp]
theorem leftButton_simulationPaused {Sim Wire : Type} (api : Engine Sim Wire) (g : Game Sim) (inp : Input) :
    (leftButton api g inp).simulationPaused = g.simulationPaused := by
  unfold leftButton
  split_ifs <;> rfl

theorem handleKeyboard_backgroundImage {Sim Wire : Type} (api : Engine Sim Wire) (g : Game Sim)
    (inp : Input) : (handleKeyboard api g inp).1.backgroundImage = g.backgroundImage := by
  unfold handleKeyboard
  split_ifs <;> simp

theorem handleMouse_backgroundImage {Sim Wire : Type} (api : Engine Sim Wire) (g : Game Sim)
    (inp : Input) : (handleMouse api g inp).backgroundImage = g.backgroundImage := by
  unfold handleMouse
  simp

/-- The handlers keep the number of wire images equal to the number of wires
of the simulation: each stage either leaves both alone or reloads. -/
theorem pressSpace_lengths {Sim Wire : Type} (api : Engine Sim Wire) (g : Game Sim)
    (inp : Input) (h : g.wireImages.length = (api.Wires g.simulation).length) :
    (pressSpace api g inp).wireImages.length =
      (api.Wires (pressSpace api g inp).simulation).length := by
  unfold pressSpace
  split
  · simp
  · exact h

theorem pressP_lengths {Sim Wire : Type} (api : Engine Sim Wire) (g : Game Sim)
    (inp : Input) (h : g.wireImages.length = (api.Wires g.simulation).length) :
    (pressP api g inp).wireImages.length =
      (api.Wires (pressP api g inp).simulation).length := by
  unfold pressP
  split
  · simp
  · exact h

theorem handleKeyboard_lengths {Sim Wire : Type} (api : Engine Sim Wire) (g : Game Sim)
    (inp : Input) (h : g.wireImages.length = (api.Wires g.simulation).length) :
    (handleKeyboard api g inp).1.wireImages.length =
      (api.Wires (handleKeyboard api g inp).1.simulation).length := by
  unfold handleKeyboard
  split_ifs
  · exact h
  · exact pressSpace_lengths api g inp h
  · simp only [moveCursorX_wireImages, moveCursorY_wireImages, moveCursorX_simulation,
      moveCursorY_simulation]
    exact pressP_lengths api _ inp (pressSpace_lengths api g inp h)

theorem handleMouse_lengths {Sim Wire : Type} (api : Engine Sim Wire) (g : Game Sim)
    (inp : Input) (h : g.wireImages.length = (api.Wires g.simulation).length) :
    (handleMouse api g inp).wireImages.length =
      (api.Wires (handleMouse api g inp).simulation).length := by
  have h2 : (trackMouse g inp).wireImages.length =
      (api.Wires (trackMouse g inp).simulation).length := by
    simpa using h
  unfold handleMouse leftButton
  split_ifs
  · simp
  · simp
  · exact h2
  · exact h2
  · exact h2

/-! ## `Update` -/

/-- When `advance` returns, it has replaced the simulation by the next
generation and has left the wire images alone. -/
theorem advance_some {Sim Wire : Type} (api : Engine Sim Wire) (g g1 : Game Sim)
    (h : advance api g = some g1) :
    g1.simulation = newSimulation api g ∧ g1.wireImages = g.wireImages ∧
    g1.simulationPaused = g.simulationPaused ∧ g1.key_debounce = g.key_debounce := by
  unfold advance at h
  simp only [] at h
  split at h
  · exact absurd h (by simp)
  · simp only [Option.some.injEq] at h
    subst h
    exact ⟨rfl, rfl, rfl, rfl⟩

/-- When `Update` returns, the error it returns is `nil`. -/
theorem Update_error_nil {Sim Wire : Type} (api : Engine Sim Wire) (g g1 : Game Sim)
    (inp : Input) (e : Option String) (h : Update api g inp = some (g1, e)) : e = none := by
  unfold Update at h
  split at h
  · exact absurd h (by simp)
  · simp only [Option.some.injEq, Prod.mk.injEq] at h
    exact h.2.symm

/-- The slots drawn by the loop over the wires, read off the list of wires. -/
theorem mem_changed_slots {Wire : Type} (wires : List Wire) (p : Nat × Wire → Bool) (i : Nat) :
    i ∈ ((wires.enum.filter p).map Prod.fst) ↔ ∃ wire, wires.get? i = some wire ∧ p (i, wire) = true := by
  simp only [List.mem_map, List.mem_filter, Prod.exists, exists_and_right, exists_eq_right]
  constructor
  · rintro ⟨wire, hm, hp⟩
    exact ⟨wire, by simpa [List.mk_mem_enum_iff_getElem?] using hm, hp⟩
  · rintro ⟨wire, hm, hp⟩
    exact ⟨wire, by simpa [List.mk_mem_enum_iff_getElem?] using hm, hp⟩

theorem nodup_changed_slots {Wire : Type} (wires : List Wire) (p : Nat × Wire → Bool) :
    ((wires.enum.filter p).map Prod.fst).Nodup := by
  have hs : List.Sublist ((wires.enum.filter p).map Prod.fst) (wires.enum.map Prod.fst) :=
    (List.filter_sublist _).map Prod.fst
  rw [List.enum_map_fst] at hs
  exact (List.nodup_range _).sublist hs

/-- When `advance` returns, the background it leaves is what the loop over
the wires made of the fresh copy of the raster. -/
theorem advance_some_background {Sim Wire : Type} (api : Engine Sim Wire) (g g1 : Game Sim)
    (h : advance api g = some g1) :
    drawWires api g (newSimulation api g) (api.Draw (newSimulation api g) g.simulationImage) 0
      (api.Wires g.simulation)
      (NewImageFromImage (api.Draw (newSimulation api g) g.simulationImage)) =
    some g1.backgroundImage := by
  unfold advance at h
  simp only [] at h
  split at h
  · exact absurd h (by simp)
  · rename_i bg hbg
    simp only [Option.some.injEq] at h
    subst h
    exact hbg

/-- C3. Whenever `Update` returns, the draw calls made on the new background
are exactly one call per wire of the current circuit whose charge in the new
generation differs from its charge in the previous one, in the order of the
wires and each with the image stored in the slot of that wire: wire number
`i` is drawn if and only if its charge changed, no slot is drawn twice, and a
wire whose charge is unchanged causes no draw call.  And `Update` does
return whenever the slice accesses of the loop are in range (a wire image for
every wire, a palette entry `charge+1` for every wire whose charge
changed). -/
theorem Update_draws_changed_wires {Sim Wire : Type} (api : Engine Sim Wire) (g : Game Sim)
    (inp : Input) :
    (∀ (g1 : Game Sim) (e : Option String), Update api g inp = some (g1, e) →
      g1.backgroundImage.draws.map DrawCall.slot =
        ((api.Wires g.simulation).enum.filter
          (fun w => api.Charge g.simulation w.2 != api.Charge (newSimulation api g) w.2)).map
          Prod.fst ∧
      (∀ (i : Nat) (wire : Wire), (api.Wires g.simulation).get? i = some wire →
        ((∃ c ∈ g1.backgroundImage.draws, c.slot = i) ↔
          api.Charge g.simulation wire ≠ api.Charge (newSimulation api g) wire)) ∧
      (g1.backgroundImage.draws.map DrawCall.slot).Nodup ∧
      (∀ c ∈ g1.backgroundImage.draws, g.wireImages.get? c.slot = some c.src)) ∧
    ((api.Wires g.simulation).length ≤ g.wireImages.length →
      (∀ wire ∈ api.Wires g.simulation,
        api.Charge g.simulation wire ≠ api.Charge (newSimulation api g) wire →
        api.Charge (newSimulation api g) wire + 1 <
          (api.Draw (newSimulation api g) g.simulationImage).Palette.length) →
      ∃ g1, Update api g inp = some (g1, none)) := by
  constructor
  · intro g1 e hu
    unfold Update at hu
    split at hu
    · exact absurd hu (by simp)
    · rename_i g2 hadv
      simp only [Option.some.injEq, Prod.mk.injEq] at hu
      have hbg : g1.backgroundImage = g2.backgroundImage := by
        rw [← hu.1, handleMouse_backgroundImage, handleKeyboard_backgroundImage]
      obtain ⟨h3, h4⟩ := drawWires_some_spec api g (newSimulation api g) _ _ 0 _ _
        (advance_some_background api g g2 hadv)
      rw [hbg]
      have hslots : g2.backgroundImage.draws.map DrawCall.slot =
          ((api.Wires g.simulation).enum.filter
            (fun w => api.Charge g.simulation w.2 != api.Charge (newSimulation api g) w.2)).map
            Prod.fst := by
        rw [h3]
        simp [NewImageFromImage, List.enum]
      refine ⟨hslots, ?_, ?_, ?_⟩
      · intro i wire hw
        have hm := mem_changed_slots (api.Wires g.simulation)
          (fun w => api.Charge g.simulation w.2 != api.Charge (newSimulation api g) w.2) i
        rw [← hslots] at hm
        constructor
        · rintro ⟨c, hc, rfl⟩
          obtain ⟨w2, hw2, hp⟩ := hm.mp (List.mem_map_of_mem _ hc)
          rw [hw] at hw2
          cases hw2
          simpa using hp
        · intro hne
          have : i ∈ g2.backgroundImage.draws.map DrawCall.slot :=
            hm.mpr ⟨wire, hw, by simpa using hne⟩
          obtain ⟨c, hc, hci⟩ := List.mem_map.mp this
          exact ⟨c, hc, hci⟩
      · rw [hslots]
        exact nodup_changed_slots _ _
      · intro c hc
        rcases h4 c hc with h | h
        · simp [NewImageFromImage] at h
        · exact h
  · intro hlen hpal
    obtain ⟨bg1, h1, _⟩ := drawWires_spec api g (newSimulation api g)
      (api.Draw (newSimulation api g) g.simulationImage) (api.Wires g.simulation) 0
      (NewImageFromImage (api.Draw (newSimulation api g) g.simulationImage))
      (by simpa using hlen) hpal
    have hadv : advance api g = some
        { g with
          simulationImage := api.Draw (newSimulation api g) g.simulationImage
          backgroundImage := bg1
          simulation := newSimulation api g } := by
      unfold advance
      simp only []
      rw [h1]
    exact ⟨_, by unfold Update; rw [hadv]⟩

/-- C3 on a game with the two wires 0 (charge 5, which a step takes to 6) and
3 (charge 1, which stays): `Update` returns, with one draw call, for slot 0. -/
theorem Update_draws_changed_wires_witness :
    exampleEngine.Wires (exampleGame (raster2x2 5 0 0 1)).simulation = [0, 3] ∧
    (Update exampleEngine (exampleGame (raster2x2 5 0 0 1)) (Input.idle 0 0)).map
        (fun r => r.1.backgroundImage.draws.map DrawCall.slot) = some [0] := by
  obtain ⟨g1, h1⟩ := (Update_draws_changed_wires exampleEngine
    (exampleGame (raster2x2 5 0 0 1)) (Input.idle 0 0)).2 (by decide) (by decide)
  have h2 := ((Update_draws_changed_wires exampleEngine
    (exampleGame (raster2x2 5 0 0 1)) (Input.idle 0 0)).1 g1 none h1).1
  refine ⟨by decide, ?_⟩
  rw [h1, Option.map_some', h2]
  decide

/-! ## The invariant of the game loop -/

/-- C7. In every game state reachable from the state built by `main` through
`Update` calls with any input, `len(g.wireImages)` is the number of wires of
the circuit of `g.simulation`, so that `g.wireImages[i]` exists for every
wire number `i` of the loop in `Update`; the only assumption is that `Step`
keeps the number of wires (as it does when it keeps the circuit). -/
theorem Reachable_wireImages_length {Sim Wire : Type} (api : Engine Sim Wire)
    (width height scale : Int)
    (hStep : ∀ s : Sim, (api.Wires (api.Step s)).length = (api.Wires s).length)
    (g : Game Sim) (hr : Reachable api width height scale g) :
    g.wireImages.length = (api.Wires g.simulation).length ∧
    ∀ i : Nat, i < (api.Wires g.simulation).length → ∃ img, g.wireImages.get? i = some img := by
  have hinv : g.wireImages.length = (api.Wires g.simulation).length := by
    induction hr with
    | start => simp [mainGame]
    | update g g1 inp e _ hu ih =>
      unfold Update at hu
      split at hu
      · exact absurd hu (by simp)
      · rename_i g2 hadv
        simp only [Option.some.injEq, Prod.mk.injEq] at hu
        obtain ⟨h1, h2, _, _⟩ := advance_some api g g2 hadv
        have hg2 : g2.wireImages.length = (api.Wires g2.simulation).length := by
          rw [h1, h2, ih]
          unfold newSimulation
          split
          · rfl
          · exact (hStep g.simulation).symm
        rw [← hu.1]
        exact handleMouse_lengths api _ inp (handleKeyboard_lengths api g2 inp hg2)
  refine ⟨hinv, fun i hi => ?_⟩
  have hi2 : i < g.wireImages.length := by omega
  exact ⟨g.wireImages.get ⟨i, hi2⟩, List.get?_eq_get hi2⟩

theorem exampleEngine_Step_wires (s : List (Nat × Nat)) :
    (exampleEngine.Wires (exampleEngine.Step s)).length = (exampleEngine.Wires s).length := by
  simp [exampleEngine]

/-- C7 on the state that a click at `(1, 0)` leaves when it is the first
input after the start of the 2 x 2 game: one wire, one wire image. -/
theorem Reachable_wireImages_length_witness :
    ∃ g1, Update exampleEngine (mainGame exampleEngine 2 2 12) clickInput = some (g1, none) ∧
      g1.wireImages.length = (exampleEngine.Wires g1.simulation).length ∧
      (exampleEngine.Wires g1.simulation).length = 1 :=
  ⟨_, rfl,
    (Reachable_wireImages_length exampleEngine 2 2 12 exampleEngine_Step_wires _
      (Reachable.update _ _ clickInput none Reachable.start rfl)).1,
    by decide⟩

/-! ## A paused game -/

/-- When both generations are the same simulation the loop over the wires
draws nothing and cannot panic. -/
theorem drawWires_same {Sim Wire : Type} (api : Engine Sim Wire) (g : Game Sim)
    (img : Paletted) :
    ∀ (wires : List Wire) (i : Nat) (bg : Background),
      drawWires api g g.simulation img i wires bg = some bg := by
  intro wires
  induction wires with
  | nil => intro i bg; rfl
  | cons wire rest ih =>
    intro i bg
    have hstep : drawWire api g g.simulation img bg i wire = some bg := by
      simp [drawWire]
    simp only [drawWires, hstep]
    exact ih (i + 1) bg

/-- What `advance` does to a paused game. -/
theorem advance_paused {Sim Wire : Type} (api : Engine Sim Wire) (g : Game Sim)
    (hp : g.simulationPaused = true) :
    advance api g = some
      { g with
        simulationImage := api.Draw g.simulation g.simulationImage
        backgroundImage := NewImageFromImage (api.Draw g.simulation g.simulationImage)
        simulation := g.simulation } := by
  have hn : newSimulation api g = g.simulation := by simp [newSimulation, hp]
  unfold advance
  simp only []
  rw [hn, drawWires_same]

theorem pressSpace_of_not_pressed {Sim Wire : Type} (api : Engine Sim Wire) (g : Game Sim)
    (inp : Input) (h : inp.KeySpace = false) : pressSpace api g inp = g := by
  simp [pressSpace, h]

theorem pressP_of_not_pressed {Sim Wire : Type} (api : Engine Sim Wire) (g : Game Sim)
    (inp : Input) (h : inp.KeyP = false) : pressP api g inp = g := by
  simp [pressP, h]

/-- Without Space and P the keyboard handler leaves the simulation alone. -/
theorem handleKeyboard_simulation_of_not_pressed {Sim Wire : Type} (api : Engine Sim Wire)
    (g : Game Sim) (inp : Input) (hs : inp.KeySpace = false) (hP : inp.KeyP = false) :
    (handleKeyboard api g inp).1.simulation = g.simulation := by
  unfold handleKeyboard
  rw [pressSpace_of_not_pressed api g inp hs, pressP_of_not_pressed api g inp hP]
  split_ifs <;> simp

/-- Without the left button the mouse handler leaves the simulation alone. -/
theorem handleMouse_simulation_of_not_pressed {Sim Wire : Type} (api : Engine Sim Wire)
    (g : Game Sim) (inp : Input) (hb : inp.MouseButtonLeft = false) :
    (handleMouse api g inp).simulation = g.simulation := by
  unfold handleMouse leftButton
  rw [hb]
  simp only [Bool.false_eq_true, if_false]
  split <;> simp

/-- C5. For every game state with `simulationPaused` true, `Update` does not
advance the simulation: the first part of `Update` returns with the very
same simulation stored back and no wire drawn, the result of `Update` does
not depend on `Step` at all (it is the same for every function put in the
place of `Step`), and when neither Space nor P nor the left mouse button is
pressed during that `Update`, `g.simulation` is unchanged on return. -/
theorem Update_paused {Sim Wire : Type} (api : Engine Sim Wire) (g : Game Sim)
    (hp : g.simulationPaused = true) :
    (∃ g1, advance api g = some g1 ∧ g1.simulation = g.simulation ∧
      g1.backgroundImage.draws = []) ∧
    (∀ (step : Sim → Sim) (inp : Input),
      Update { api with Step := step } g inp = Update api g inp) ∧
    (∀ inp : Input, inp.KeySpace = false → inp.KeyP = false → inp.MouseButtonLeft = false →
      ∃ g2, Update api g inp = some (g2, none) ∧ g2.simulation = g.simulation) := by
  refine ⟨⟨_, advance_paused api g hp, rfl, rfl⟩, ?_, ?_⟩
  · intro step inp
    unfold Update
    rw [advance_paused api g hp, advance_paused { api with Step := step } g hp]
    rfl
  · intro inp hs hP hb
    refine ⟨_, by unfold Update; rw [advance_paused api g hp], ?_⟩
    rw [handleMouse_simulation_of_not_pressed api _ inp hb,
      handleKeyboard_simulation_of_not_pressed api _ inp hs hP]

/-- C5 on a paused game with a pulse in the raster: an `Update` without input
returns and the simulation still holds the charges 5 and 1. -/
theorem Update_paused_witness :
    pausedGame.simulationPaused = true ∧
    (Update exampleEngine pausedGame (Input.idle 0 0)).map (fun r => r.1.simulation) =
      some [(0, 5), (3, 1)] := by
  obtain ⟨g2, h1, h2⟩ := (Update_paused exampleEngine pausedGame rfl).2.2 (Input.idle 0 0)
    rfl rfl rfl
  refine ⟨rfl, ?_⟩
  rw [h1, Option.map_some', h2]
  decide

/-! ## The Escape key -/

/-- C8, what the code does at a tick with Escape pressed: `handleKeyboard`
returns the error "closing game" at once, with the game as it was, and
`Update`, which calls it without looking at the value it returns, returns
`nil` whenever it returns, and it does return whenever its first part does. -/
theorem Update_discards_closing_error {Sim Wire : Type} (api : Engine Sim Wire) (g : Game Sim)
    (inp : Input) (hEsc : inp.KeyEscape = true) :
    (∀ g0 : Game Sim, handleKeyboard api g0 inp = (g0, some "closing game")) ∧
    (∀ (g1 : Game Sim) (e : Option String), Update api g inp = some (g1, e) → e = none) ∧
    (∀ g0 : Game Sim, advance api g = some g0 →
      Update api g inp = some (handleMouse api g0 inp, none)) := by
  have hk : ∀ g0 : Game Sim, handleKeyboard api g0 inp = (g0, some "closing game") := by
    intro g0
    unfold handleKeyboard
    rw [if_pos hEsc]
  refine ⟨hk, fun g1 e h => Update_error_nil api g g1 inp e h, fun g0 h0 => ?_⟩
  unfold Update
  rw [h0]
  simp only [hk g0]

/-- C8 on the 2 x 2 game with only Escape pressed: `handleKeyboard` returns
the error, `Update` returns `nil`. -/
theorem Update_discards_closing_error_witness :
    escapeInput.KeyEscape = true ∧
    (handleKeyboard exampleEngine (exampleGame (raster2x2 0 1 0 0)) escapeInput).2 =
      some "closing game" ∧
    (Update exampleEngine (exampleGame (raster2x2 0 1 0 0)) escapeInput).map Prod.snd =
      some none := by
  have h := Update_discards_closing_error exampleEngine (exampleGame (raster2x2 0 1 0 0))
    escapeInput rfl
  refine ⟨rfl, ?_, ?_⟩
  · rw [h.1]
  · obtain ⟨g0, h0⟩ : ∃ g0, advance exampleEngine (exampleGame (raster2x2 0 1 0 0)) = some g0 :=
      ⟨_, rfl⟩
    rw [h.2.2 g0 h0]
    rfl

/-! ## The palette lookup -/

/-- The palette of `main` has an entry `c + 1` exactly for `c` up to 6. -/
theorem mainPalette_get?_succ (c : Nat) :
    (mainPalette.get? (c + 1)).isSome = true ↔ c ≤ 6 := by
  constructor
  · intro h
    by_contra hc
    have hlen : mainPalette.length ≤ c + 1 := by
      have : mainPalette.length = 8 := rfl
      omega
    rw [List.get?_eq_none.mpr hlen] at h
    exact absurd h (by simp)
  · intro h
    interval_cases c <;> rfl

/-- C6 as stated fails at `c = 7`: the palette of `main` has 8 entries and no
entry 8, and an `Update` in which a wire goes from charge 6 to charge 7
panics (on the game whose raster holds the index 6 at the origin). -/
theorem palette_lookup_fails_at_charge_7 :
    (1 ≤ 7 ∧ 7 ≤ 7) ∧ mainPalette.length = 8 ∧ mainPalette.get? (7 + 1) = none ∧
    (exampleGame (raster2x2 6 0 0 0)).simulationImage.Palette = mainPalette ∧
    exampleEngine.Charge (exampleGame (raster2x2 6 0 0 0)).simulation 0 = 6 ∧
    exampleEngine.Charge
      (newSimulation exampleEngine (exampleGame (raster2x2 6 0 0 0))) 0 = 7 ∧
    (Update exampleEngine (exampleGame (raster2x2 6 0 0 0)) (Input.idle 0 0)).isSome = false := by
  decide

/-- C6, amended.  With the palette of `main` in the raster, the lookup
`Palette[charge+1]` that `Update` performs for a wire whose charge changed is
in range for every new charge up to 6 (so for every charge from 1 to 6), and
with a wire image in the slot of the wire that iteration of the loop then
completes; for the charge K = 7 the lookup is out of range and the iteration
panics. -/
theorem drawWire_palette_lookup {Sim Wire : Type} (api : Engine Sim Wire) (g : Game Sim)
    (next : Sim) (img : Paletted) (bg : Background) (i : Nat) (wire : Wire)
    (hpal : img.Palette = mainPalette)
    (hchg : api.Charge g.simulation wire ≠ api.Charge next wire)
    (hi : i < g.wireImages.length) :
    (api.Charge next wire ≤ 6 →
      (img.Palette.get? (api.Charge next wire + 1)).isSome = true ∧
      (drawWire api g next img bg i wire).isSome = true) ∧
    (api.Charge next wire = 7 →
      img.Palette.get? (api.Charge next wire + 1) = none ∧
      drawWire api g next img bg i wire = none) := by
  have hlook := mainPalette_get?_succ (api.Charge next wire)
  rw [← hpal] at hlook
  obtain ⟨src, hsrc⟩ : ∃ src, g.wireImages.get? i = some src :=
    ⟨g.wireImages.get ⟨_, hi⟩, List.get?_eq_get hi⟩
  have hdraw : drawWire api g next img bg i wire =
      match img.Palette.get? (api.Charge next wire + 1) with
      | none => none
      | some colour =>
        some { bg with
               draws := bg.draws ++
                 [⟨i, src, (api.Bounds wire).Min.X, (api.Bounds wire).Min.Y, colour⟩] } := by
    simp only [drawWire]
    rw [if_neg (by simpa using hchg), hsrc]
  constructor
  · intro h6
    have hs := hlook.mpr h6
    refine ⟨hs, ?_⟩
    rw [hdraw]
    cases hc : img.Palette.get? (api.Charge next wire + 1) with
    | none =>
      rw [hc] at hs
      exact absurd hs (by simp)
    | some colour => rfl
  · intro h7
    have hn : img.Palette.get? (api.Charge next wire + 1) = none := by
      cases hc : img.Palette.get? (api.Charge next wire + 1) with
      | none => rfl
      | some colour =>
        have := hlook.mp (by rw [hc]; rfl)
        omega
    refine ⟨hn, ?_⟩
    rw [hdraw, hn]

/-- C6, amended, on the wire 0 of the game whose raster holds the index 5 at
the origin: the wire goes from charge 5 to charge 6 and is drawn with entry 7
of the palette. -/
theorem drawWire_palette_lookup_witness :
    exampleEngine.Charge (newSimulation exampleEngine (exampleGame (raster2x2 5 0 0 1))) 0 = 6 ∧
    (drawWire exampleEngine (exampleGame (raster2x2 5 0 0 1))
      (newSimulation exampleEngine (exampleGame (raster2x2 5 0 0 1)))
      (exampleGame (raster2x2 5 0 0 1)).simulationImage
      (NewImageFromImage (exampleGame (raster2x2 5 0 0 1)).simulationImage) 0 0).isSome = true :=
  ⟨by decide,
   ((drawWire_palette_lookup exampleEngine (exampleGame (raster2x2 5 0 0 1))
      (newSimulation exampleEngine (exampleGame (raster2x2 5 0 0 1)))
      (exampleGame (raster2x2 5 0 0 1)).simulationImage
      (NewImageFromImage (exampleGame (raster2x2 5 0 0 1)).simulationImage) 0 0
      (by decide) (by decide) (by decide)).1 (by decide)).2⟩

/-! ## The P key and its debounce counter -/

/-- One `handleKeyboard` call with P held and Escape not pressed: a positive
counter is counted down and the pause flag stays; otherwise the counter is
set to 10 and the pause flag is inverted. -/
theorem handleKeyboard_P {Sim Wire : Type} (api : Engine Sim Wire) (g : Game Sim)
    (inp : Input) (hP : inp.KeyP = true) (hE : inp.KeyEscape = false) :
    (0 < g.key_debounce →
      (handleKeyboard api g inp).1.key_debounce = g.key_debounce - 1 ∧
      (handleKeyboard api g inp).1.simulationPaused = g.simulationPaused) ∧
    (g.key_debounce ≤ 0 →
      (handleKeyboard api g inp).1.key_debounce = 10 ∧
      (handleKeyboard api g inp).1.simulationPaused = !g.simulationPaused) := by
  have hp1 : (pressP api (pressSpace api g inp) inp).key_debounce = 10 := by
    simp [pressP, hP]
  have hp2 : (pressP api (pressSpace api g inp) inp).simulationPaused =
      !g.simulationPaused := by
    simp [pressP, hP]
  constructor
  · intro hpos
    unfold handleKeyboard
    rw [hE, hP]
    simp [hpos]
  · intro hle
    unfold handleKeyboard
    rw [hE, hP]
    have : ¬ (0 < g.key_debounce) := by omega
    simp [this, hp1, hp2]

theorem keyboardRun_append {Sim Wire : Type} (api : Engine Sim Wire) (inputs : List Input)
    (inp : Input) :
    ∀ g : Game Sim, keyboardRun api g (inputs ++ [inp]) =
      (handleKeyboard api (keyboardRun api g inputs) inp).1 := by
  induction inputs with
  | nil => intro g; rfl
  | cons first rest ih =>
    intro g
    simp only [List.cons_append, keyboardRun]
    exact ih _

theorem keyboardRun_take_succ {Sim Wire : Type} (api : Engine Sim Wire) (g : Game Sim)
    (inputs : List Input) (k : Nat) (hk : k < inputs.length) :
    keyboardRun api g (inputs.take (k + 1)) =
      (handleKeyboard api (keyboardRun api g (inputs.take k)) (inputs.get ⟨k, hk⟩)).1 := by
  have ht : inputs.take (k + 1) = inputs.take k ++ [inputs.get ⟨k, hk⟩] := by
    rw [List.take_succ, List.getElem?_eq_getElem hk]
    rfl
  rw [ht, keyboardRun_append]

/-- The debounce counter after `k` calls of a run with P held, started at 0:
0 before the calls 0, 11, 22, ..., and 10, 9, ..., 1 in between. -/
theorem keyboardRun_key_debounce {Sim Wire : Type} (api : Engine Sim Wire) (g : Game Sim)
    (inputs : List Input) (h0 : g.key_debounce = 0)
    (hP : ∀ inp ∈ inputs, inp.KeyP = true ∧ inp.KeyEscape = false) :
    ∀ k : Nat, k ≤ inputs.length →
      (keyboardRun api g (inputs.take k)).key_debounce =
        if k % 11 = 0 then 0 else 11 - ((k % 11 : Nat) : Int) := by
  intro k
  induction k with
  | zero =>
    intro _
    simpa [keyboardRun] using h0
  | succ k ih =>
    intro hk
    have hk2 : k < inputs.length := by omega
    have hprev := ih (by omega)
    have hin := hP (inputs.get ⟨k, hk2⟩) (List.get_mem _ _ _)
    have hstep := handleKeyboard_P api (keyboardRun api g (inputs.take k))
      (inputs.get ⟨k, hk2⟩) hin.1 hin.2
    rw [keyboardRun_take_succ api g inputs k hk2]
    by_cases hz : k % 11 = 0
    · rw [if_pos hz] at hprev
      rw [(hstep.2 (by omega)).1]
      have : (k + 1) % 11 = 1 := by omega
      rw [if_neg (by omega), this]
      rfl
    · rw [if_neg hz] at hprev
      have hlt : k % 11 < 11 := Nat.mod_lt _ (by decide)
      rw [(hstep.1 (by omega)).1, hprev]
      by_cases hz2 : (k + 1) % 11 = 0
      · rw [if_pos hz2]
        have : k % 11 = 10 := by omega
        rw [this]
        rfl
      · rw [if_neg hz2]
        have : (k + 1) % 11 = k % 11 + 1 := by omega
        rw [this]
        push_cast
        ring

/-- C9. In a run of consecutive `handleKeyboard` calls with P held and Escape
not pressed, started with `key_debounce = 0`, the call number `k` (counted
from 0) inverts `simulationPaused` exactly when `k` is a multiple of 11 and
leaves it as it is otherwise, and `key_debounce` is between 0 and 10 before
and after every call. -/
theorem keyboardRun_pause_toggle {Sim Wire : Type} (api : Engine Sim Wire) (g : Game Sim)
    (inputs : List Input) (h0 : g.key_debounce = 0)
    (hP : ∀ inp ∈ inputs, inp.KeyP = true ∧ inp.KeyEscape = false)
    (k : Nat) (hk : k < inputs.length) :
    keyboardRun api g (inputs.take (k + 1)) =
      (handleKeyboard api (keyboardRun api g (inputs.take k)) (inputs.get ⟨k, hk⟩)).1 ∧
    ((keyboardRun api g (inputs.take (k + 1))).simulationPaused =
        (!(keyboardRun api g (inputs.take k)).simulationPaused) ↔ k % 11 = 0) ∧
    ((keyboardRun api g (inputs.take (k + 1))).simulationPaused =
        (keyboardRun api g (inputs.take k)).simulationPaused ↔ k % 11 ≠ 0) ∧
    (0 ≤ (keyboardRun api g (inputs.take k)).key_debounce ∧
      (keyboardRun api g (inputs.take k)).key_debounce ≤ 10) ∧
    (0 ≤ (keyboardRun api g (inputs.take (k + 1))).key_debounce ∧
      (keyboardRun api g (inputs.take (k + 1))).key_debounce ≤ 10) := by
  have hd := keyboardRun_key_debounce api g inputs h0 hP
  have hbefore := hd k (by omega)
  have hafter := hd (k + 1) (by omega)
  have hin := hP (inputs.get ⟨k, hk⟩) (List.get_mem _ _ _)
  have hstep := handleKeyboard_P api (keyboardRun api g (inputs.take k))
    (inputs.get ⟨k, hk⟩) hin.1 hin.2
  have hrun := keyboardRun_take_succ api g inputs k hk
  have hlt : k % 11 < 11 := Nat.mod_lt _ (by decide)
  have hlt2 : (k + 1) % 11 < 11 := Nat.mod_lt _ (by decide)
  refine ⟨hrun, ?_, ?_, ?_, ?_⟩
  · rw [hrun]
    by_cases hz : k % 11 = 0
    · rw [if_pos hz] at hbefore
      rw [(hstep.2 (by omega)).2]
      simp [hz]
    · rw [if_neg hz] at hbefore
      rw [(hstep.1 (by omega)).2]
      simp [hz]
  · rw [hrun]
    by_cases hz : k % 11 = 0
    · rw [if_pos hz] at hbefore
      rw [(hstep.2 (by omega)).2]
      simp [hz]
    · rw [if_neg hz] at hbefore
      rw [(hstep.1 (by omega)).2]
      simp [hz]
  · rw [hbefore]
    split_ifs <;> omega
  · rw [hafter]
    split_ifs <;> omega

/-- C9 on a run of 23 calls with only P held: the calls 0, 11 and 22 invert
the pause flag, the call 5 does not. -/
theorem keyboardRun_pause_toggle_witness :
    (exampleGame (raster2x2 0 1 0 0)).key_debounce = 0 ∧
    ((keyboardRun exampleEngine (exampleGame (raster2x2 0 1 0 0))
        ((List.replicate 23 pInput).take (11 + 1))).simulationPaused =
      !(keyboardRun exampleEngine (exampleGame (raster2x2 0 1 0 0))
        ((List.replicate 23 pInput).take 11)).simulationPaused) ∧
    ((keyboardRun exampleEngine (exampleGame (raster2x2 0 1 0 0))
        ((List.replicate 23 pInput).take (5 + 1))).simulationPaused =
      (keyboardRun exampleEngine (exampleGame (raster2x2 0 1 0 0))
        ((List.replicate 23 pInput).take 5)).simulationPaused) :=
  ⟨rfl,
   (keyboardRun_pause_toggle exampleEngine (exampleGame (raster2x2 0 1 0 0))
      (List.replicate 23 pInput) rfl (by decide) 11 (by decide)).2.1.mpr (by decide),
   (keyboardRun_pause_toggle exampleEngine (exampleGame (raster2x2 0 1 0 0))
      (List.replicate 23 pInput) rfl (by decide) 5 (by decide)).2.2.1.mpr (by decide)⟩

/-! ## Every edit is followed by a reload -/

/-- C2 as stated fails when Space and P are pressed in the same tick with the
debounce counter at 0: after the edit and its reload, `handleKeyboard` powers
the raster down and reloads again, so on return `g.simulation` is built from
the powered-down raster (wire 1 has charge 1), not from the raster as it stood
right after the edit (where wire 1 has charge 3). -/
theorem handleKeyboard_space_and_P_reloads_twice :
    spaceAndPInput.KeySpace = true ∧ spaceAndPInput.KeyEscape = false ∧
    (handleKeyboard exampleEngine (exampleGame (raster2x2 0 3 0 0)) spaceAndPInput).1.simulation =
      [(0, 1), (1, 1)] ∧
    exampleEngine.New (flipPixel (exampleGame (raster2x2 0 3 0 0)).cursorx
      (exampleGame (raster2x2 0 3 0 0)).cursory
      (exampleGame (raster2x2 0 3 0 0)).simulationImage) = [(0, 1), (1, 3)] ∧
    (handleKeyboard exampleEngine (exampleGame (raster2x2 0 3 0 0)) spaceAndPInput).1.simulation ≠
      exampleEngine.New (flipPixel (exampleGame (raster2x2 0 3 0 0)).cursorx
        (exampleGame (raster2x2 0 3 0 0)).cursory
        (exampleGame (raster2x2 0 3 0 0)).simulationImage) := by
  decide

/-- C2, amended.  In `handleKeyboard` (Space pressed, Escape not) and in
`handleMouse` (left button pressed, and either not pressed before or the
cursor away from the mouse) the pixel under the cursor is flipped and the
simulation reloaded.  On return of `handleMouse`, and of `handleKeyboard`
unless it also processes the P key with the debounce counter run out,
`g.simulation` is `simulation.New` of the raster as it stood right after the
edit; in the remaining case it is `simulation.New` of that raster after the
reload has drawn into it and `drawPoweredDown` has powered it down.  In every
case `g.wireImages` holds exactly the masks of the wires of the circuit of
the new `g.simulation`, one per wire. -/
theorem edit_is_followed_by_reload {Sim Wire : Type} (api : Engine Sim Wire)
    (gk : Game Sim) (ik : Input) (gm : Game Sim) (im : Input)
    (hEsc : ik.KeyEscape = false) (hSpace : ik.KeySpace = true)
    (hBtn : im.MouseButtonLeft = true)
    (hEdit : (trackMouse gm im).leftMouseButtonPressed = false ∨
      (trackMouse gm im).cursorx ≠ (trackMouse gm im).mouse_cursorx ∨
      (trackMouse gm im).cursory ≠ (trackMouse gm im).mouse_cursory) :
    (¬ (ik.KeyP = true ∧ gk.key_debounce ≤ 0) →
      (handleKeyboard api gk ik).1.simulation =
        api.New (flipPixel gk.cursorx gk.cursory gk.simulationImage)) ∧
    ((ik.KeyP = true ∧ gk.key_debounce ≤ 0) →
      (handleKeyboard api gk ik).1.simulation =
        api.New (drawPoweredDown
          (api.Draw (api.New (flipPixel gk.cursorx gk.cursory gk.simulationImage))
            (flipPixel gk.cursorx gk.cursory gk.simulationImage)))) ∧
    (handleKeyboard api gk ik).1.wireImages =
      (api.Wires (handleKeyboard api gk ik).1.simulation).map (fun wire => drawMask api wire) ∧
    (handleMouse api gm im).simulation =
      api.New (flipPixel (trackMouse gm im).cursorx (trackMouse gm im).cursory
        gm.simulationImage) ∧
    (handleMouse api gm im).wireImages =
      (api.Wires (handleMouse api gm im).simulation).map (fun wire => drawMask api wire) := by
  have hs : pressSpace api gk ik = flipAndReload api gk := by simp [pressSpace, hSpace]
  have hmouse : handleMouse api gm im = flipAndReload api (trackMouse gm im) ∨
      handleMouse api gm im =
        { flipAndReload api (trackMouse gm im) with leftMouseButtonPressed := true } := by
    unfold handleMouse leftButton
    rw [hBtn]
    simp only [if_true]
    by_cases hl : (trackMouse gm im).leftMouseButtonPressed = true
    · have hmove : (trackMouse gm im).cursorx ≠ (trackMouse gm im).mouse_cursorx ∨
          (trackMouse gm im).cursory ≠ (trackMouse gm im).mouse_cursory := by
        rcases hEdit with h | h
        · rw [hl] at h
          exact absurd h (by simp)
        · exact h
      left
      rw [if_neg (by simpa using hl), if_pos hmove]
    · right
      rw [if_pos (by simpa using hl)]
  refine ⟨?_, ?_, ?_, ?_, ?_⟩
  · intro hno
    unfold handleKeyboard
    rw [hEsc, hs]
    by_cases hP : ik.KeyP = true
    · have hpos : 0 < gk.key_debounce := by
        by_contra hc
        exact hno ⟨hP, by omega⟩
      simp [hP, hpos]
    · have hP2 : ik.KeyP = false := by simpa using hP
      simp [hP2, pressP]
  · rintro ⟨hP, hle⟩
    unfold handleKeyboard
    rw [hEsc, hs]
    have hnpos : ¬ (0 < gk.key_debounce) := by omega
    simp [hP, hnpos, pressP]
  · unfold handleKeyboard
    rw [hEsc, hs]
    by_cases hP : ik.KeyP = true
    · by_cases hpos : 0 < gk.key_debounce
      · simp [hP, hpos]
      · simp [hP, hpos, pressP]
    · have hP2 : ik.KeyP = false := by simpa using hP
      simp [hP2, pressP]
  · rcases hmouse with h | h
    · rw [h]
      simp
    · rw [h]
      simp
  · rcases hmouse with h | h
    · rw [h]
      simp
    · rw [h]
      simp

/-- C2, amended, on the game with raster `0 3 / 0 0`: Space alone flips the
pixel at the cursor `(0, 0)`, a click at `(1, 0)` flips the pixel there, and
the simulation on return is the one built from the edited raster. -/
theorem edit_is_followed_by_reload_witness :
    (handleKeyboard exampleEngine (exampleGame (raster2x2 0 3 0 0)) spaceInput).1.simulation =
      [(0, 1), (1, 3)] ∧
    (handleMouse exampleEngine (exampleGame (raster2x2 0 3 0 0)) clickInput).simulation = [] := by
  have h := edit_is_followed_by_reload exampleEngine (exampleGame (raster2x2 0 3 0 0))
    spaceInput (exampleGame (raster2x2 0 3 0 0)) clickInput rfl rfl rfl (Or.inl rfl)
  refine ⟨?_, ?_⟩
  · rw [h.1 (by decide)]
    decide
  · rw [h.2.2.2.1]
    decide

end WiredLogic
